import Mathlib

/-!
# FlySight Viewer: the query and aggregation core of `DataPlot`

A shallow embedding of `src/src/dataplot.cpp`: the two binary searches
`findIndexBelowX` / `findIndexAboveX`, the interpolating lookup
`interpolateDataX`, the windowed statistics of `setMark(start, end)`, and the
range conversions of `updateRange`, `setRange` and `setXAxisType`.

Conventions of the embedding.

* `double` values are rational numbers; a quotient whose divisor is zero has
  no value (`none`), as `0.0 / 0.0` is not a number. The comparisons, the
  indices and the order of the branches do not depend on rounding. Where the
  rounding of a `double` operation decides a property, `roundDouble` gives the
  value the operation stores (IEEE 754 binary64, round to nearest, ties to
  even) and `fractionDouble` the fraction of `interpolateDataX` computed with
  it.
* `int` values are integers; the one sum that can leave the 32-bit range,
  `below + above`, is wrapped explicitly by `int32`. It stays in range for
  every sequence of fewer than `2 ^ 30` samples, which is the hypothesis
  `data.length < 2 ^ 30` of the theorems about the searches.
* Reading a sample outside `[0, n-1]` is a fault: every function that reads
  samples returns an `Option`, and `none` is the fault.
* The `while` loops of the searches carry a step budget of `n + 1` tests of
  the loop condition; `none` is also the answer of a loop that does not leave
  within its budget. `bisect_spec` shows that the budget is never what ends a
  search: the loop leaves on its own after at most `above - below` tests.
* The active axis channel `xValue()`, the elapsed-time channel
  `m_xValues[Time]`, a visible series channel `yValue(i)` and
  `DataPoint::interpolate` are parameters `xv`, `tv`, `yv`, `interp`; the
  concrete scenarios instantiate them with the definitions modelled from the
  specification.
-/

namespace FlySight

/-- Modelled from the spec: the `Sample` record of section 3 (class `DataPoint`,
which `dataplot.cpp` uses and does not declare): timestamp, geodetic position,
velocity components, accuracy estimates, satellite count, and the elapsed time
`t` that `setRange` reads. -/
structure DataPoint where
  dateTime : ℚ
  lat : ℚ
  lon : ℚ
  hMSL : ℚ
  velN : ℚ
  velE : ℚ
  velD : ℚ
  hAcc : ℚ
  vAcc : ℚ
  sAcc : ℚ
  numSV : ℚ
  t : ℚ
  deriving DecidableEq

/-- A channel: `PlotValue::value(dp, units)` for a fixed unit system. -/
abbrev Channel := DataPoint → ℚ

/-- The type of `DataPoint::interpolate(p1, p2, a)`. -/
abbrev Interp := DataPoint → DataPoint → ℚ → DataPoint

/-- Modelled from the spec: `DataPoint::interpolate` (section 4.2), which
interpolates every field of the record linearly with the fraction `a`. -/
def DataPoint.interpolate (p1 p2 : DataPoint) (a : ℚ) : DataPoint where
  dateTime := p1.dateTime + a * (p2.dateTime - p1.dateTime)
  lat := p1.lat + a * (p2.lat - p1.lat)
  lon := p1.lon + a * (p2.lon - p1.lon)
  hMSL := p1.hMSL + a * (p2.hMSL - p1.hMSL)
  velN := p1.velN + a * (p2.velN - p1.velN)
  velE := p1.velE + a * (p2.velE - p1.velE)
  velD := p1.velD + a * (p2.velD - p1.velD)
  hAcc := p1.hAcc + a * (p2.hAcc - p1.hAcc)
  vAcc := p1.vAcc + a * (p2.vAcc - p1.vAcc)
  sAcc := p1.sAcc + a * (p2.sAcc - p1.sAcc)
  numSV := p1.numSV + a * (p2.numSV - p1.numSV)
  t := p1.t + a * (p2.t - p1.t)

/-- Modelled from the spec: the elapsed-time channel (`PlotTime::value`). -/
def PlotTime (dp : DataPoint) : ℚ := dp.t

/-- Modelled from the spec: the elevation channel (`PlotElevation::value`),
in metres. -/
def PlotElevation (dp : DataPoint) : ℚ := dp.hMSL

/-- Modelled from the spec: `mMainWindow->dataPoint(i)`, the 0-indexed sample
`sampleAt(i)` of section 6; an index outside `[0, n-1]` has no sample. -/
def dataPoint (data : List DataPoint) (i : Int) : Option DataPoint :=
  if 0 ≤ i then data[i.toNat]? else none

/-- Two's-complement wrap of an integer into the range of a 32-bit `int`. -/
def int32 (z : Int) : Int := (z + 2 ^ 31) % 2 ^ 32 - 2 ^ 31

/-- The `while (below + 1 != above)` loop of `findIndexBelowX`, run for at
most `fuel` tests of its condition. -/
def findIndexBelowX.loop (xv : Channel) (data : List DataPoint) (x : ℚ) :
    Nat → Int → Int → Option Int
  | 0, _, _ => none
  | fuel + 1, below, above =>
    if below + 1 ≠ above then
      let mid := Int.tdiv (int32 (below + above)) 2
      match dataPoint data mid with
      | none => none
      | some dp =>
        if xv dp < x then findIndexBelowX.loop xv data x fuel mid above
        else findIndexBelowX.loop xv data x fuel below mid
    else some below

/-- `DataPlot::findIndexBelowX` (lines 770-786): the loop starts from
`below = -1`, `above = dataSize()`. -/
def findIndexBelowX (xv : Channel) (data : List DataPoint) (x : ℚ) : Option Int :=
  findIndexBelowX.loop xv data x (data.length + 1) (-1) data.length

/-- The `while (below + 1 != above)` loop of `findIndexAboveX`, run for at
most `fuel` tests of its condition. -/
def findIndexAboveX.loop (xv : Channel) (data : List DataPoint) (x : ℚ) :
    Nat → Int → Int → Option Int
  | 0, _, _ => none
  | fuel + 1, below, above =>
    if below + 1 ≠ above then
      let mid := Int.tdiv (int32 (below + above)) 2
      match dataPoint data mid with
      | none => none
      | some dp =>
        if xv dp > x then findIndexAboveX.loop xv data x fuel below mid
        else findIndexAboveX.loop xv data x fuel mid above
    else some above

/-- `DataPlot::findIndexAboveX` (lines 788-804): the loop starts from
`below = -1`, `above = dataSize()`. -/
def findIndexAboveX (xv : Channel) (data : List DataPoint) (x : ℚ) : Option Int :=
  findIndexAboveX.loop xv data x (data.length + 1) (-1) data.length

/-- `DataPlot::interpolateDataX` (lines 746-768). The fraction
`(x - x1) / (x2 - x1)` has no value when `x2 - x1` is zero. -/
def interpolateDataX (interp : Interp) (xv : Channel) (data : List DataPoint) (x : ℚ) :
    Option DataPoint :=
  match findIndexBelowX xv data x, findIndexAboveX xv data x with
  | some i1, some i2 =>
    if i1 < 0 then dataPoint data 0
    else if i2 ≥ data.length then dataPoint data (data.length - 1)
    else
      match dataPoint data i1, dataPoint data i2 with
      | some dp1, some dp2 =>
        let x1 := xv dp1
        let x2 := xv dp2
        if x2 - x1 = 0 then none
        else some (interp dp1 dp2 ((x - x1) / (x2 - x1)))
      | _, _ => none
  | _, _ => none

/-- The running values of the per-channel aggregation in `setMark`. -/
structure MarkAcc where
  sum : ℚ
  dxSum : ℚ
  min : ℚ
  max : ℚ
  deriving DecidableEq

/-- The row `setMark(start, end)` builds for one visible series channel:
the value at the end, the change, and the operands of `[min/avg/max]`,
where the average shown is `sum / dxSum`. -/
structure MarkStats where
  value : ℚ
  change : ℚ
  min : ℚ
  sum : ℚ
  dxSum : ℚ
  max : ℚ
  deriving DecidableEq

/-- The quotient `sum / dxSum` shown as the average; it has no value when
`dxSum` is zero. -/
def MarkStats.mean (s : MarkStats) : Option ℚ :=
  if s.dxSum = 0 then none else some (s.sum / s.dxSum)

/-- What `setMark(start, end)` does: it returns before building the tooltip
(`hidden`), or shows the row of the channel. -/
inductive MarkResult where
  | hidden : MarkResult
  | shown (row : MarkStats) : MarkResult
  deriving DecidableEq

/-- The loop `for (int j = jMin; j < jMax; ++j)` of `setMark` (lines 343-358):
`count` is the number of iterations left and `j` the current index. -/
def setMark.loop (tv yv : Channel) (data : List DataPoint) :
    Nat → Int → MarkAcc → Option MarkAcc
  | 0, _, acc => some acc
  | count + 1, j, acc =>
    match dataPoint data j, dataPoint data (j + 1) with
    | some dp1, some dp2 =>
      let dx := tv dp2 - tv dp1
      let avg := (yv dp2 + yv dp1) / 2
      setMark.loop tv yv data count (j + 1)
        { sum := acc.sum + avg * |dx|
          dxSum := acc.dxSum + |dx|
          min := min acc.min (yv dp1)
          max := max acc.max (yv dp1) }
    | _, _ => none

/-- `DataPlot::setMark(double start, double end)` (lines 255-391), for one
visible series channel `yv`; the source runs the same body once for each
visible channel. The rows of the axis channels (lines 289-314) only format
`dpStart` and `dpEnd` and are left out. -/
def setMark (interp : Interp) (xv tv yv : Channel) (data : List DataPoint)
    (start end_ : ℚ) : Option MarkResult := do
  let dpStart ← interpolateDataX interp xv data start
  let dpEnd ← interpolateDataX interp xv data end_
  if data.length = 0 then pure MarkResult.hidden
  else do
    let low := min start end_
    let high := max start end_
    let dpLow ← interpolateDataX interp xv data low
    let dpHigh ← interpolateDataX interp xv data high
    let jMin ← findIndexAboveX xv data low
    let jMax ← findIndexBelowX xv data high
    let dpMin ← dataPoint data jMin
    let dpMax ← dataPoint data jMax
    let dx := tv dpMin - tv dpLow
    let avg := (yv dpMin + yv dpLow) / 2
    let acc ← setMark.loop tv yv data (jMax - jMin).toNat jMin
      { sum := avg * |dx|, dxSum := |dx|, min := yv dpLow, max := yv dpLow }
    let min1 := min acc.min (yv dpMax)
    let max1 := max acc.max (yv dpMax)
    let dx2 := tv dpHigh - tv dpMax
    let avg2 := (yv dpHigh + yv dpMax) / 2
    pure (MarkResult.shown
      { value := yv dpEnd
        change := yv dpEnd - yv dpStart
        min := min min1 (yv dpHigh)
        sum := acc.sum + avg2 * |dx2|
        dxSum := acc.dxSum + |dx2|
        max := max max1 (yv dpHigh) })

/-- A sample with elapsed time `t` and elevation `h`, all other fields zero. -/
def mkPoint (t h : ℚ) : DataPoint :=
  { dateTime := 0, lat := 0, lon := 0, hMSL := h, velN := 0, velE := 0, velD := 0,
    hAcc := 0, vAcc := 0, sAcc := 0, numSV := 0, t := t }

/-- Three samples at `t = 0, 1, 2` with elevations `0, 10, 20`. -/
def track3 : List DataPoint := [mkPoint 0 0, mkPoint 1 10, mkPoint 2 20]

/-! ## Definitions used to state and prove the properties -/

/-- The common shape of the two search loops: the pair `(below, above)` is
narrowed at the midpoint, `below` moving up when the test `q` holds there. -/
def bisect (q : DataPoint → Prop) [DecidablePred q] (data : List DataPoint) :
    Nat → Int → Int → Option (Int × Int)
  | 0, _, _ => none
  | fuel + 1, below, above =>
    if below + 1 ≠ above then
      match dataPoint data (Int.tdiv (int32 (below + above)) 2) with
      | none => none
      | some dp =>
        if q dp then bisect q data fuel (Int.tdiv (int32 (below + above)) 2) above
        else bisect q data fuel below (Int.tdiv (int32 (below + above)) 2)
    else some (below, above)

/-- A test that holds on a prefix of the samples: once it fails at an index it
fails at every later one. -/
def PrefixClosed (q : DataPoint → Prop) (data : List DataPoint) : Prop :=
  ∀ (i j : Nat) (hi : i < data.length) (hj : j < data.length), i ≤ j → q data[j] → q data[i]

/-- The axis values are non-decreasing along the samples. -/
def AxisSorted (xv : Channel) (data : List DataPoint) : Prop :=
  data.Pairwise (fun p q => xv p ≤ xv q)

/-- The axis values are strictly increasing along the samples. -/
def AxisStrict (xv : Channel) (data : List DataPoint) : Prop :=
  data.Pairwise (fun p q => xv p < xv q)

instance (xv : Channel) (data : List DataPoint) : Decidable (AxisSorted xv data) := by
  unfold AxisSorted; infer_instance

instance (xv : Channel) (data : List DataPoint) : Decidable (AxisStrict xv data) := by
  unfold AxisStrict; infer_instance

/-- Three samples at `t = 0, 1, 2` with elevations `0, 5, 0`. -/
def bump3 : List DataPoint := [mkPoint 0 0, mkPoint 1 5, mkPoint 2 0]

/-- Two samples at `t = 0, 1` with elevations `0, 100`. -/
def ramp2 : List DataPoint := [mkPoint 0 0, mkPoint 1 100]

/-- A single sample at `t = 0` with elevation `7`. -/
def single1 : List DataPoint := [mkPoint 0 7]

/-- The indices `mid` that the loop of `findIndexBelowX` probes, in order: the
same loop, recording each `mid` before `dataPoint(mid)` is read. -/
def findIndexBelowX.probes (xv : Channel) (data : List DataPoint) (x : ℚ) :
    Nat → Int → Int → List Int
  | 0, _, _ => []
  | fuel + 1, below, above =>
    if below + 1 ≠ above then
      let mid := Int.tdiv (int32 (below + above)) 2
      mid :: (match dataPoint data mid with
        | none => []
        | some dp =>
          if xv dp < x then findIndexBelowX.probes xv data x fuel mid above
          else findIndexBelowX.probes xv data x fuel below mid)
    else []

/-- The indices `mid` that the loop of `findIndexAboveX` probes, in order. -/
def findIndexAboveX.probes (xv : Channel) (data : List DataPoint) (x : ℚ) :
    Nat → Int → Int → List Int
  | 0, _, _ => []
  | fuel + 1, below, above =>
    if below + 1 ≠ above then
      let mid := Int.tdiv (int32 (below + above)) 2
      mid :: (match dataPoint data mid with
        | none => []
        | some dp =>
          if xv dp > x then findIndexAboveX.probes xv data x fuel below mid
          else findIndexAboveX.probes xv data x fuel mid above)
    else []

/-- The probes of the common shape `bisect` of the two search loops. -/
def bisectProbes (q : DataPoint → Prop) [DecidablePred q] (data : List DataPoint) :
    Nat → Int → Int → List Int
  | 0, _, _ => []
  | fuel + 1, below, above =>
    if below + 1 ≠ above then
      Int.tdiv (int32 (below + above)) 2 ::
        (match dataPoint data (Int.tdiv (int32 (below + above)) 2) with
        | none => []
        | some dp =>
          if q dp then bisectProbes q data fuel (Int.tdiv (int32 (below + above)) 2) above
          else bisectProbes q data fuel below (Int.tdiv (int32 (below + above)) 2))
    else []

/-- Four samples whose times `0, 1, 1, 2` repeat: the duplicate timestamps of a
faulty import. -/
def dup4 : List DataPoint := [mkPoint 0 0, mkPoint 1 10, mkPoint 1 20, mkPoint 2 30]

/-- Four samples whose times `2, 0, 1, 1` are not monotonic. -/
def shuffled4 : List DataPoint := [mkPoint 2 0, mkPoint 0 0, mkPoint 1 0, mkPoint 1 0]

/-- Modelled from the spec: `MainWindow::interpolateDataT`, which `updateRange`
calls and `dataplot.cpp` does not define: the index resolution of section 4.1 and
the interpolation of section 4.2, keyed by elapsed time. A time at or beyond
either end of the span returns that boundary sample unmodified. Otherwise the
bracket is the tightest pair `t(below) < t <= t(above)` of adjacent samples,
`below` being the largest index whose time is strictly below `t`, and every field
is interpolated with the fraction `(t - t(below)) / (t(above) - t(below))`; when
the two times are equal the lower sample is returned. At the time of a sample the
fraction is `1`. -/
def interpolateDataT (interp : Interp) (data : List DataPoint) (t : ℚ) : Option DataPoint :=
  match dataPoint data 0, dataPoint data (data.length - 1) with
  | some first, some last =>
    if t ≤ first.t then some first
    else if last.t ≤ t then some last
    else
      match findIndexBelowX PlotTime data t with
      | some below =>
        match dataPoint data below, dataPoint data (below + 1) with
        | some dp1, some dp2 =>
          if dp2.t - dp1.t = 0 then some dp1
          else some (interp dp1 dp2 ((t - dp1.t) / (dp2.t - dp1.t)))
        | _, _ => none
      | none => none
  | _, _ => none

/-- `DataPlot::updateRange` (lines 612-624): the axis range `(xMin, xMax)` it
hands to `xAxis->setRange` for the time range `(rangeLower, rangeUpper)` of the
main window; `some none` when it returns without setting a range. -/
def updateRange (interp : Interp) (xv : Channel) (data : List DataPoint)
    (rangeLower rangeUpper : ℚ) : Option (Option (ℚ × ℚ)) :=
  if data.length = 0 then some none
  else
    match interpolateDataT interp data rangeLower, interpolateDataT interp data rangeUpper with
    | some dpLower, some dpUpper => some (some (xv dpLower, xv dpUpper))
    | _, _ => none

/-- `DataPlot::setRange` (lines 446-453): the time range `(dpLower.t, dpUpper.t)`
it hands to `mMainWindow->setRange` for the axis range `(lower, upper)`. -/
def setRange (interp : Interp) (xv : Channel) (data : List DataPoint) (lower upper : ℚ) :
    Option (ℚ × ℚ) :=
  match interpolateDataX interp xv data lower, interpolateDataX interp xv data upper with
  | some dpLower, some dpUpper => some (dpLower.t, dpUpper.t)
  | _, _ => none

/-- `DataPlot::setXAxisType` (lines 813-833): from the axis range and the two
cursor coordinates under the old axis channel `xvOld`, the axis range and the
values of `m_tCursor` and `m_tBegin` under the new axis channel `xvNew`. -/
def setXAxisType (interp : Interp) (xvOld xvNew : Channel) (data : List DataPoint)
    (lower upper tCursor tBegin : ℚ) : Option (ℚ × ℚ × ℚ × ℚ) :=
  match interpolateDataX interp xvOld data lower, interpolateDataX interp xvOld data upper,
    interpolateDataX interp xvOld data tCursor, interpolateDataX interp xvOld data tBegin with
  | some dpLower, some dpUpper, some dpCursor, some dpBegin =>
    some (xvNew dpLower, xvNew dpUpper, xvNew dpCursor, xvNew dpBegin)
  | _, _, _, _ => none

/-- `DataPlot::setMark(double mark)` (lines 393-444), the overload for a single
coordinate, for one visible series channel `yv`: the value it shows, `some none`
when it returns at its guard `dataSize() == 0`. -/
def setMarkPoint (interp : Interp) (xv yv : Channel) (data : List DataPoint) (mark : ℚ) :
    Option (Option ℚ) :=
  if data.length = 0 then some none
  else
    match interpolateDataX interp xv data mark with
    | some dp => some (some (yv dp))
    | none => none

/-- Modelled from the spec: an axis channel other than elapsed time, the distance
travelled (`PlotDistance2D::value`). The record above carries no distance field;
the scenarios use a track along a meridian, where the distance travelled is the
change of latitude, and the channel reads `lat`. -/
def PlotDistance2D (dp : DataPoint) : ℚ := dp.lat

/-- A sample with elapsed time `t` that has travelled the distance `d`. -/
def mkFix (t d : ℚ) : DataPoint :=
  { dateTime := 0, lat := d, lon := 0, hMSL := 0, velN := 0, velE := 0, velD := 0,
    hAcc := 0, vAcc := 0, sAcc := 0, numSV := 0, t := t }

/-- Three samples at `t = 0, 1, 2` with distances `0, 1, 10`: strictly
increasing, not linear in time. -/
def surge3 : List DataPoint := [mkFix 0 0, mkFix 1 1, mkFix 2 10]

/-- Four samples at `t = 0, 1, 2, 3` with distances `0, 1, 1, 2`: non-decreasing,
with a pause between `t = 1` and `t = 2`. -/
def pause4 : List DataPoint := [mkFix 0 0, mkFix 1 1, mkFix 2 1, mkFix 3 2]

/-- Rounding to the nearest integer, a tie going to the even neighbour. -/
def roundHalfEven (q : ℚ) : ℤ :=
  if q - ⌊q⌋ < 1 / 2 then ⌊q⌋
  else if 1 / 2 < q - ⌊q⌋ then ⌊q⌋ + 1
  else if ⌊q⌋ % 2 = 0 then ⌊q⌋ else ⌊q⌋ + 1

/-- The exponent of the spacing of the `double` values around `q`: 53
significant bits, and never finer than the subnormal spacing `2 ^ (-1074)`. -/
def ulpExponent (q : ℚ) : ℤ := max (Int.log 2 |q| - 52) (-1074)

/-- The value a `double` operation stores when its exact result is `q` (IEEE 754
binary64, round to nearest, ties to even): the multiple of the spacing nearest to
`q`; no value when the result overflows to an infinity. A rational `q` is itself a
`double` when `roundDouble q = some q`. -/
def roundDouble (q : ℚ) : Option ℚ :=
  if |(roundHalfEven (q / 2 ^ ulpExponent q) : ℚ) * 2 ^ ulpExponent q| < 2 ^ 1024
  then some ((roundHalfEven (q / 2 ^ ulpExponent q) : ℚ) * 2 ^ ulpExponent q)
  else none

/-- The fraction `(x - x1) / (x2 - x1)` of `interpolateDataX` (line 766) as the
program computes it on `double` values: each of the two differences and the
quotient is rounded. No value when a difference or the quotient overflows, or
the divisor is zero. -/
def fractionDouble (x x1 x2 : ℚ) : Option ℚ :=
  match roundDouble (x - x1), roundDouble (x2 - x1) with
  | some a, some b => if b = 0 then none else roundDouble (a / b)
  | _, _ => none

/-- Two samples at the times `-1` and `1`. -/
def pair2 : List DataPoint := [mkPoint (-1) 0, mkPoint 1 0]

/-- Two samples at the times `0` and `2`. -/
def wide2 : List DataPoint := [mkPoint 0 0, mkPoint 2 0]

/-- The coordinate `x` is not that of an interior sample: it is at or before the
coordinate of the first sample, at or after that of the last one, or the
coordinate of no sample. -/
def OffInterior (xv : Channel) (data : List DataPoint) (hne : data ≠ []) (x : ℚ) : Prop :=
  x ≤ xv (data.head hne) ∨ xv (data.getLast hne) ≤ x ∨ ∀ p ∈ data, xv p ≠ x

instance (xv : Channel) (data : List DataPoint) (hne : data ≠ []) (x : ℚ) :
    Decidable (OffInterior xv data hne x) := by
  unfold OffInterior; infer_instance

/-- The time `t` clamped to the span of the sample times, for a sequence sorted by
time. -/
def clampTime (data : List DataPoint) (hne : data ≠ []) (t : ℚ) : ℚ :=
  max (PlotTime (data.head hne)) (min t (PlotTime (data.getLast hne)))

/-! ## Theorems -/

theorem findIndexBelowX_loop_eq (xv : Channel) (data : List DataPoint) (x : ℚ)
    (fuel : Nat) (below above : Int) :
    findIndexBelowX.loop xv data x fuel below above
      = (bisect (fun dp => xv dp < x) data fuel below above).map Prod.fst := by
  induction fuel generalizing below above with
  | zero => simp [findIndexBelowX.loop, bisect]
  | succ k ih =>
    simp only [findIndexBelowX.loop, bisect]
    split_ifs with h
    · cases hd : dataPoint data (Int.tdiv (int32 (below + above)) 2) with
      | none => simp
      | some dp =>
        simp only []
        split_ifs <;> exact ih _ _
    · simp

theorem findIndexAboveX_loop_eq (xv : Channel) (data : List DataPoint) (x : ℚ)
    (fuel : Nat) (below above : Int) :
    findIndexAboveX.loop xv data x fuel below above
      = (bisect (fun dp => xv dp ≤ x) data fuel below above).map Prod.snd := by
  induction fuel generalizing below above with
  | zero => simp [findIndexAboveX.loop, bisect]
  | succ k ih =>
    simp only [findIndexAboveX.loop, bisect]
    split_ifs with h
    · cases hd : dataPoint data (Int.tdiv (int32 (below + above)) 2) with
      | none => simp
      | some dp =>
        simp only []
        by_cases hq : xv dp ≤ x
        · rw [if_neg (not_lt.mpr hq), if_pos hq]; exact ih _ _
        · rw [if_pos (not_le.mp hq), if_neg hq]; exact ih _ _
    · simp

theorem int32_eq_self {z : Int} (h0 : -2 ^ 31 ≤ z) (h1 : z < 2 ^ 31) : int32 z = z := by
  unfold int32
  have : (z + 2 ^ 31) % 2 ^ 32 = z + 2 ^ 31 := Int.emod_eq_of_lt (by omega) (by omega)
  omega

theorem dataPoint_natCast (data : List DataPoint) (i : Nat) :
    dataPoint data (i : Int) = data[i]? := by
  simp [dataPoint]

theorem dataPoint_of_lt (data : List DataPoint) (i : Nat) (h : i < data.length) :
    dataPoint data (i : Int) = some data[i] := by
  rw [dataPoint_natCast, List.getElem?_eq_getElem h]

theorem dataPoint_eq_some_iff {data : List DataPoint} {i : Int} {p : DataPoint} :
    dataPoint data i = some p ↔ ∃ (k : Nat) (h : k < data.length), i = k ∧ data[k] = p := by
  constructor
  · intro h
    unfold dataPoint at h
    split_ifs at h with h0
    obtain ⟨hk, he⟩ := List.getElem?_eq_some.mp h
    exact ⟨i.toNat, hk, by omega, he⟩
  · rintro ⟨k, hk, rfl, rfl⟩
    exact dataPoint_of_lt data k hk

theorem midpoint_facts {below above : Int} {n : Nat} (hn : n < 2 ^ 30)
    (hb : -1 ≤ below) (hlt : below + 1 < above) (ha : above ≤ n) :
    ∃ m : Nat, Int.tdiv (int32 (below + above)) 2 = m ∧ below < m ∧ (m : Int) < above := by
  have h1 : int32 (below + above) = below + above :=
    int32_eq_self (by omega) (by omega)
  have h2 : Int.tdiv (below + above) 2 = (below + above) / 2 :=
    Int.tdiv_eq_ediv (by omega) (by omega)
  refine ⟨((below + above) / 2).toNat, ?_, ?_, ?_⟩
  · rw [h1, h2]; omega
  · omega
  · omega

theorem bisect_spec (q : DataPoint → Prop) [DecidablePred q] (data : List DataPoint)
    (hn : data.length < 2 ^ 30) (fuel : Nat) (below above : Int)
    (hb : -1 ≤ below) (hba : below < above) (ha : above ≤ data.length)
    (hfuel : (above - below).toNat ≤ fuel)
    (invb : 0 ≤ below → ∃ dp, dataPoint data below = some dp ∧ q dp)
    (inva : above < data.length → ∃ dp, dataPoint data above = some dp ∧ ¬ q dp) :
    ∃ r : Int, bisect q data fuel below above = some (r, r + 1) ∧ -1 ≤ r ∧ r < data.length
      ∧ (0 ≤ r → ∃ dp, dataPoint data r = some dp ∧ q dp)
      ∧ (r + 1 < data.length → ∃ dp, dataPoint data (r + 1) = some dp ∧ ¬ q dp) := by
  induction fuel generalizing below above with
  | zero => omega
  | succ k ih =>
    by_cases hexit : below + 1 = above
    · refine ⟨below, ?_, hb, by omega, invb, ?_⟩
      · simp [bisect, hexit]
      · rw [hexit]; exact inva
    · obtain ⟨m, hm, hbm, hma⟩ := midpoint_facts hn hb (by omega) ha
      have hmlt : m < data.length := by omega
      have hdp : dataPoint data (m : Int) = some data[m] := dataPoint_of_lt data m hmlt
      simp only [bisect, ne_eq, hexit, not_false_eq_true, if_true, hm, hdp]
      by_cases hq : q data[m]
      · rw [if_pos hq]
        exact ih (m : Int) above (by omega) hma ha (by omega)
          (fun _ => ⟨data[m], hdp, hq⟩) inva
      · rw [if_neg hq]
        exact ih below (m : Int) hb hbm (by omega) (by omega) invb
          (fun _ => ⟨data[m], hdp, hq⟩)

theorem bisect_sorted (q : DataPoint → Prop) [DecidablePred q] (data : List DataPoint)
    (hn : data.length < 2 ^ 30) (hq : PrefixClosed q data) :
    ∃ r : Int, bisect q data (data.length + 1) (-1) data.length = some (r, r + 1)
      ∧ -1 ≤ r ∧ r < data.length
      ∧ ∀ (i : Nat) (hi : i < data.length), ((i : Int) ≤ r ↔ q data[i]) := by
  obtain ⟨r, hr, h1, h2, h3, h4⟩ := bisect_spec q data hn (data.length + 1) (-1) data.length
    (le_refl _) (by omega) (le_refl _) (by omega) (by omega) (by omega)
  refine ⟨r, hr, h1, h2, ?_⟩
  intro i hi
  constructor
  · intro hir
    obtain ⟨dp, hdp, hqd⟩ := h3 (by omega)
    obtain ⟨k, hk, hrk, rfl⟩ := dataPoint_eq_some_iff.mp hdp
    exact hq i k hi hk (by omega) hqd
  · intro hqi
    by_contra hcon
    obtain ⟨dp, hdp, hqd⟩ := h4 (by omega)
    obtain ⟨k, hk, hrk, rfl⟩ := dataPoint_eq_some_iff.mp hdp
    exact hqd (hq k i hk hi (by omega) hqi)

theorem AxisStrict.sorted {xv : Channel} {data : List DataPoint} (h : AxisStrict xv data) :
    AxisSorted xv data :=
  List.Pairwise.imp (fun hpq => le_of_lt hpq) h

theorem AxisSorted.le {xv : Channel} {data : List DataPoint} (h : AxisSorted xv data)
    {i j : Nat} (hi : i < data.length) (hj : j < data.length) (hij : i ≤ j) :
    xv data[i] ≤ xv data[j] := by
  rcases Nat.eq_or_lt_of_le hij with rfl | hlt
  · exact le_refl _
  · exact List.pairwise_iff_getElem.mp h i j hi hj hlt

theorem AxisStrict.lt {xv : Channel} {data : List DataPoint} (h : AxisStrict xv data)
    {i j : Nat} (hi : i < data.length) (hj : j < data.length) (hij : i < j) :
    xv data[i] < xv data[j] :=
  List.pairwise_iff_getElem.mp h i j hi hj hij

theorem findIndexBelowX_sorted (xv : Channel) (data : List DataPoint) (x : ℚ)
    (hn : data.length < 2 ^ 30) (hs : AxisSorted xv data) :
    ∃ r : Int, findIndexBelowX xv data x = some r ∧ -1 ≤ r ∧ r < data.length
      ∧ ∀ (i : Nat) (hi : i < data.length), ((i : Int) ≤ r ↔ xv data[i] < x) := by
  obtain ⟨r, hr, h1, h2, h3⟩ := bisect_sorted (fun dp => xv dp < x) data hn
    (fun i j hi hj hij hlt => lt_of_le_of_lt (hs.le hi hj hij) hlt)
  exact ⟨r, by simp [findIndexBelowX, findIndexBelowX_loop_eq, hr], h1, h2, h3⟩

theorem findIndexAboveX_sorted (xv : Channel) (data : List DataPoint) (x : ℚ)
    (hn : data.length < 2 ^ 30) (hs : AxisSorted xv data) :
    ∃ r : Int, findIndexAboveX xv data x = some r ∧ 0 ≤ r ∧ r ≤ data.length
      ∧ ∀ (i : Nat) (hi : i < data.length), (r ≤ (i : Int) ↔ x < xv data[i]) := by
  obtain ⟨r, hr, h1, h2, h3⟩ := bisect_sorted (fun dp => xv dp ≤ x) data hn
    (fun i j hi hj hij hle => le_trans (hs.le hi hj hij) hle)
  refine ⟨r + 1, by simp [findIndexAboveX, findIndexAboveX_loop_eq, hr], by omega, by omega, ?_⟩
  intro i hi
  rw [← not_le, ← h3 i hi]
  omega

theorem findIndexBelowX_some (xv : Channel) (data : List DataPoint) (x : ℚ)
    (hn : data.length < 2 ^ 30) (hs : AxisSorted xv data)
    (hex : ∃ (i : Nat) (hi : i < data.length), xv data[i] < x) :
    ∃ (b : Nat) (_ : b < data.length), findIndexBelowX xv data x = some (b : Int)
      ∧ ∀ (i : Nat) (hi : i < data.length), (i ≤ b ↔ xv data[i] < x) := by
  obtain ⟨r, hr, h1, h2, h3⟩ := findIndexBelowX_sorted xv data x hn hs
  obtain ⟨i, hi, hix⟩ := hex
  have hir : (i : Int) ≤ r := (h3 i hi).mpr hix
  refine ⟨r.toNat, by omega, ?_, ?_⟩
  · rw [hr]; congr 1; omega
  · intro k hk
    rw [← h3 k hk]; omega

theorem findIndexBelowX_none (xv : Channel) (data : List DataPoint) (x : ℚ)
    (hn : data.length < 2 ^ 30) (hs : AxisSorted xv data)
    (hall : ∀ (i : Nat) (hi : i < data.length), ¬ xv data[i] < x) :
    findIndexBelowX xv data x = some (-1) := by
  obtain ⟨r, hr, h1, h2, h3⟩ := findIndexBelowX_sorted xv data x hn hs
  rw [hr]; congr 1
  by_contra hne
  exact hall r.toNat (by omega) ((h3 r.toNat (by omega)).mp (by omega))

theorem findIndexAboveX_some (xv : Channel) (data : List DataPoint) (x : ℚ)
    (hn : data.length < 2 ^ 30) (hs : AxisSorted xv data)
    (hex : ∃ (i : Nat) (hi : i < data.length), x < xv data[i]) :
    ∃ (a : Nat) (_ : a < data.length), findIndexAboveX xv data x = some (a : Int)
      ∧ ∀ (i : Nat) (hi : i < data.length), (a ≤ i ↔ x < xv data[i]) := by
  obtain ⟨r, hr, h1, h2, h3⟩ := findIndexAboveX_sorted xv data x hn hs
  obtain ⟨i, hi, hix⟩ := hex
  have hir : r ≤ (i : Int) := (h3 i hi).mpr hix
  refine ⟨r.toNat, by omega, ?_, ?_⟩
  · rw [hr]; congr 1; omega
  · intro k hk
    rw [← h3 k hk]; omega

theorem findIndexAboveX_none (xv : Channel) (data : List DataPoint) (x : ℚ)
    (hn : data.length < 2 ^ 30) (hs : AxisSorted xv data)
    (hall : ∀ (i : Nat) (hi : i < data.length), ¬ x < xv data[i]) :
    findIndexAboveX xv data x = some (data.length : Int) := by
  obtain ⟨r, hr, h1, h2, h3⟩ := findIndexAboveX_sorted xv data x hn hs
  rw [hr]; congr 1
  by_contra hne
  exact hall r.toNat (by omega) ((h3 r.toNat (by omega)).mp (by omega))

theorem interpolateDataX_first (interp : Interp) (xv : Channel) (data : List DataPoint)
    (x : ℚ) (i2 : Int) (h1 : findIndexBelowX xv data x = some (-1))
    (h2 : findIndexAboveX xv data x = some i2) :
    interpolateDataX interp xv data x = data[0]? := by
  simp [interpolateDataX, h1, h2, dataPoint]

theorem interpolateDataX_last (interp : Interp) (xv : Channel) (data : List DataPoint)
    (x : ℚ) (b : Nat) (h1 : findIndexBelowX xv data x = some (b : Int))
    (h2 : findIndexAboveX xv data x = some (data.length : Int)) :
    interpolateDataX interp xv data x = data[data.length - 1]? := by
  have hb : ¬ ((b : Int) < 0) := by omega
  simp only [interpolateDataX, h1, h2, hb, if_false, ge_iff_le, le_refl, if_true]
  cases hl : data.length with
  | zero =>
    rw [List.length_eq_zero.mp hl]
    simp [dataPoint]
  | succ k =>
    have : ((k + 1 : Nat) : Int) - 1 = (k : Int) := by omega
    rw [this, dataPoint_natCast]; simp

theorem interpolateDataX_between (interp : Interp) (xv : Channel) (data : List DataPoint)
    (x : ℚ) (b a : Nat) (hb : b < data.length) (ha : a < data.length)
    (h1 : findIndexBelowX xv data x = some (b : Int))
    (h2 : findIndexAboveX xv data x = some (a : Int))
    (hne : xv data[a] - xv data[b] ≠ 0) :
    interpolateDataX interp xv data x
      = some (interp data[b] data[a] ((x - xv data[b]) / (xv data[a] - xv data[b]))) := by
  have hb0 : ¬ ((b : Int) < 0) := by omega
  have ha0 : ¬ ((a : Int) ≥ (data.length : Int)) := by omega
  simp only [interpolateDataX, h1, h2, hb0, ha0, if_false, dataPoint_of_lt data b hb,
    dataPoint_of_lt data a ha, hne]

theorem mem_iff_getElem_nat {data : List DataPoint} {P : DataPoint → Prop} :
    (∃ p ∈ data, P p) ↔ ∃ (i : Nat) (hi : i < data.length), P data[i] := by
  constructor
  · rintro ⟨p, hp, hP⟩
    obtain ⟨i, hi, rfl⟩ := List.getElem_of_mem hp
    exact ⟨i, hi, hP⟩
  · rintro ⟨i, hi, hP⟩
    exact ⟨data[i], List.getElem_mem hi, hP⟩

/-- Inside the span of a sorted sequence `interpolateDataX` interpolates between
the last sample strictly below `x` and the first sample strictly above it. -/
theorem interpolateDataX_interior (interp : Interp) (xv : Channel) (data : List DataPoint)
    (x : ℚ) (hn : data.length < 2 ^ 30) (hs : AxisSorted xv data)
    (hlo : ∃ p ∈ data, xv p < x) (hhi : ∃ p ∈ data, x < xv p) :
    ∃ (b a : Nat) (hb : b < data.length) (ha : a < data.length),
      findIndexBelowX xv data x = some (b : Int) ∧ findIndexAboveX xv data x = some (a : Int)
      ∧ (∀ (i : Nat) (hi : i < data.length), (i ≤ b ↔ xv data[i] < x))
      ∧ (∀ (i : Nat) (hi : i < data.length), (a ≤ i ↔ x < xv data[i]))
      ∧ xv data[b] < x ∧ x < xv data[a]
      ∧ interpolateDataX interp xv data x
          = some (interp data[b] data[a] ((x - xv data[b]) / (xv data[a] - xv data[b]))) := by
  obtain ⟨b, hb, hfb, hbi⟩ := findIndexBelowX_some xv data x hn hs (mem_iff_getElem_nat.mp hlo)
  obtain ⟨a, ha, hfa, hai⟩ := findIndexAboveX_some xv data x hn hs (mem_iff_getElem_nat.mp hhi)
  have hxb : xv data[b] < x := (hbi b hb).mp (le_refl _)
  have hxa : x < xv data[a] := (hai a ha).mp (le_refl _)
  refine ⟨b, a, hb, ha, hfb, hfa, hbi, hai, hxb, hxa, ?_⟩
  exact interpolateDataX_between interp xv data x b a hb ha hfb hfa
    (by intro h; linarith)

/-- C1 (clamping): on a non-empty sequence with non-decreasing axis values,
`interpolateDataX(x)` returns the first sample unmodified when `x` is below every
axis value, and the last sample unmodified when `x` is above every axis value. -/
theorem interpolateDataX_clamps (interp : Interp) (xv : Channel) (data : List DataPoint)
    (x : ℚ) (hn : data.length < 2 ^ 30) (hne : data ≠ []) (hs : AxisSorted xv data) :
    ((∀ p ∈ data, x < xv p) → interpolateDataX interp xv data x = some (data.head hne))
    ∧ ((∀ p ∈ data, xv p < x) → interpolateDataX interp xv data x = some (data.getLast hne)) := by
  have hpos : 0 < data.length := List.length_pos.mpr hne
  constructor
  · intro hall
    have hb := findIndexBelowX_none xv data x hn hs
      (fun i hi h => absurd (hall data[i] (List.getElem_mem hi)) (not_lt.mpr (le_of_lt h)))
    obtain ⟨r, hr, -⟩ := findIndexAboveX_sorted xv data x hn hs
    rw [interpolateDataX_first interp xv data x r hb hr, List.getElem?_eq_getElem hpos,
      List.head_eq_getElem]
  · intro hall
    obtain ⟨b, hb, hfb, -⟩ := findIndexBelowX_some xv data x hn hs
      ⟨0, hpos, hall _ (List.getElem_mem hpos)⟩
    have ha := findIndexAboveX_none xv data x hn hs
      (fun i hi h => absurd (hall data[i] (List.getElem_mem hi)) (not_lt.mpr (le_of_lt h)))
    rw [interpolateDataX_last interp xv data x b hfb ha,
      List.getElem?_eq_getElem (by omega), List.getLast_eq_getElem]

/-- C2: on a sequence sorted by the axis channel, for `x` strictly between the
smallest and the largest axis value, `interpolateDataX(x)` returns a sample whose
axis value is exactly `x`, provided `DataPoint::interpolate` interpolates the axis
channel linearly with the fraction it is given. -/
theorem interpolateDataX_axis_value (interp : Interp) (xv : Channel) (data : List DataPoint)
    (x : ℚ) (hn : data.length < 2 ^ 30) (hs : AxisSorted xv data)
    (hlin : ∀ p q f, xv (interp p q f) = xv p + f * (xv q - xv p))
    (hlo : ∃ p ∈ data, xv p < x) (hhi : ∃ p ∈ data, x < xv p) :
    ∃ dp, interpolateDataX interp xv data x = some dp ∧ xv dp = x := by
  obtain ⟨b, a, hb, ha, -, -, -, -, hxb, hxa, hres⟩ :=
    interpolateDataX_interior interp xv data x hn hs hlo hhi
  refine ⟨_, hres, ?_⟩
  rw [hlin]
  have hne : xv data[a] - xv data[b] ≠ 0 := by intro h; linarith
  field_simp

/-- C4: on a sequence with non-decreasing axis values `findIndexBelowX(x)` returns
the largest index whose axis value is strictly below `x`, and returns `-1` exactly
when no sample has an axis value strictly below `x`. -/
theorem findIndexBelowX_largest_below (xv : Channel) (data : List DataPoint) (x : ℚ)
    (hn : data.length < 2 ^ 30) (hs : AxisSorted xv data) :
    ∃ r : Int, findIndexBelowX xv data x = some r
      ∧ (r = -1 ↔ ∀ p ∈ data, ¬ xv p < x)
      ∧ (r ≠ -1 → ∃ p, dataPoint data r = some p ∧ xv p < x
          ∧ ∀ (j : Int) (q : DataPoint), dataPoint data j = some q → xv q < x → j ≤ r) := by
  obtain ⟨r, hr, h1, h2, h3⟩ := findIndexBelowX_sorted xv data x hn hs
  refine ⟨r, hr, ?_, ?_⟩
  · constructor
    · intro hneg p hp hlt
      obtain ⟨i, hi, rfl⟩ := List.getElem_of_mem hp
      have := (h3 i hi).mpr hlt
      omega
    · intro hall
      by_contra hne
      exact hall data[r.toNat] (List.getElem_mem _) ((h3 r.toNat (by omega)).mp (by omega))
  · intro hne
    have hlt : r.toNat < data.length := by omega
    refine ⟨data[r.toNat], ?_, (h3 r.toNat hlt).mp (by omega), ?_⟩
    · exact dataPoint_eq_some_iff.mpr ⟨r.toNat, hlt, by omega, rfl⟩
    · intro j q hj hq
      obtain ⟨k, hk, rfl, rfl⟩ := dataPoint_eq_some_iff.mp hj
      exact (h3 k hk).mpr hq

/-- C5: on a sequence with non-decreasing axis values `findIndexAboveX(x)` returns
the smallest index whose axis value is strictly above `x`, and returns the length
`n` exactly when no sample has an axis value strictly above `x`. -/
theorem findIndexAboveX_smallest_above (xv : Channel) (data : List DataPoint) (x : ℚ)
    (hn : data.length < 2 ^ 30) (hs : AxisSorted xv data) :
    ∃ r : Int, findIndexAboveX xv data x = some r
      ∧ (r = data.length ↔ ∀ p ∈ data, ¬ x < xv p)
      ∧ (r ≠ data.length → ∃ p, dataPoint data r = some p ∧ x < xv p
          ∧ ∀ (j : Int) (q : DataPoint), dataPoint data j = some q → x < xv q → r ≤ j) := by
  obtain ⟨r, hr, h1, h2, h3⟩ := findIndexAboveX_sorted xv data x hn hs
  refine ⟨r, hr, ?_, ?_⟩
  · constructor
    · intro hneg p hp hlt
      obtain ⟨i, hi, rfl⟩ := List.getElem_of_mem hp
      have := (h3 i hi).mpr hlt
      omega
    · intro hall
      by_contra hne
      exact hall data[r.toNat] (List.getElem_mem _) ((h3 r.toNat (by omega)).mp (by omega))
  · intro hne
    have hlt : r.toNat < data.length := by omega
    refine ⟨data[r.toNat], ?_, (h3 r.toNat hlt).mp (by omega), ?_⟩
    · exact dataPoint_eq_some_iff.mpr ⟨r.toNat, hlt, by omega, rfl⟩
    · intro j q hj hq
      obtain ⟨k, hk, rfl, rfl⟩ := dataPoint_eq_some_iff.mp hj
      exact (h3 k hk).mpr hq

theorem track3_sorted : AxisSorted PlotTime track3 := by
  simp [AxisSorted, track3, PlotTime, mkPoint]

theorem track3_strict : AxisStrict PlotTime track3 := by
  simp [AxisStrict, track3, PlotTime, mkPoint]

theorem interpolate_time_linear (p q : DataPoint) (f : ℚ) :
    PlotTime (DataPoint.interpolate p q f) = PlotTime p + f * (PlotTime q - PlotTime p) := rfl

/-- Witness of C1 on the three-sample track: a query at `-1` returns the first
sample and a query at `3` the last one. -/
theorem interpolateDataX_clamps_witness :
    interpolateDataX DataPoint.interpolate PlotTime track3 (-1) = some (mkPoint 0 0)
    ∧ interpolateDataX DataPoint.interpolate PlotTime track3 3 = some (mkPoint 2 20) :=
  ⟨(interpolateDataX_clamps DataPoint.interpolate PlotTime track3 (-1) (by decide)
      (by decide) track3_sorted).1 (by norm_num [track3, PlotTime, mkPoint]),
   (interpolateDataX_clamps DataPoint.interpolate PlotTime track3 3 (by decide)
      (by decide) track3_sorted).2 (by norm_num [track3, PlotTime, mkPoint])⟩

/-- Witness of C2 on the three-sample track: the sample interpolated at `1/2`
has elapsed time `1/2`. -/
theorem interpolateDataX_axis_value_witness :
    ∃ dp, interpolateDataX DataPoint.interpolate PlotTime track3 (1 / 2) = some dp
      ∧ PlotTime dp = 1 / 2 :=
  interpolateDataX_axis_value DataPoint.interpolate PlotTime track3 (1 / 2) (by decide)
    track3_sorted interpolate_time_linear
    ⟨mkPoint 0 0, by simp [track3], by norm_num [PlotTime, mkPoint]⟩
    ⟨mkPoint 1 10, by simp [track3], by norm_num [PlotTime, mkPoint]⟩

/-- Witness of C4 on the three-sample track with `x = 1`. -/
theorem findIndexBelowX_largest_below_witness :
    track3.length < 2 ^ 30 ∧ AxisSorted PlotTime track3 ∧
    ∃ r : Int, findIndexBelowX PlotTime track3 1 = some r
      ∧ (r = -1 ↔ ∀ p ∈ track3, ¬ PlotTime p < 1)
      ∧ (r ≠ -1 → ∃ p, dataPoint track3 r = some p ∧ PlotTime p < 1
          ∧ ∀ (j : Int) (q : DataPoint), dataPoint track3 j = some q → PlotTime q < 1 → j ≤ r) :=
  ⟨by decide, track3_sorted,
    findIndexBelowX_largest_below PlotTime track3 1 (by decide) track3_sorted⟩

/-- Witness of C5 on the three-sample track with `x = 1`. -/
theorem findIndexAboveX_smallest_above_witness :
    track3.length < 2 ^ 30 ∧ AxisSorted PlotTime track3 ∧
    ∃ r : Int, findIndexAboveX PlotTime track3 1 = some r
      ∧ (r = track3.length ↔ ∀ p ∈ track3, ¬ 1 < PlotTime p)
      ∧ (r ≠ track3.length → ∃ p, dataPoint track3 r = some p ∧ 1 < PlotTime p
          ∧ ∀ (j : Int) (q : DataPoint), dataPoint track3 j = some q → 1 < PlotTime q → r ≤ j) :=
  ⟨by decide, track3_sorted,
    findIndexAboveX_smallest_above PlotTime track3 1 (by decide) track3_sorted⟩

theorem dataPoint_nil (i : Int) : dataPoint [] i = none := by
  simp [dataPoint]

theorem dataPoint_cons (p : DataPoint) (ps : List DataPoint) (i : Int) :
    dataPoint (p :: ps) i = if i = 0 then some p else dataPoint ps (i - 1) := by
  by_cases h1 : 0 ≤ i
  · obtain ⟨k, rfl⟩ := Int.eq_ofNat_of_zero_le h1
    cases k with
    | zero => simp [dataPoint]
    | succ k =>
      have h2 : ((k + 1 : Nat) : Int) - 1 = (k : Int) := by omega
      have h3 : ((k + 1 : Nat) : Int) ≠ 0 := by omega
      rw [if_neg h3, h2, dataPoint_natCast, dataPoint_natCast]
      simp
  · have h2 : ¬ 0 ≤ i - 1 := by omega
    have h3 : i ≠ 0 := by omega
    simp [dataPoint, h1, h2, h3]

theorem AxisStrict.lt_iff {xv : Channel} {data : List DataPoint} (h : AxisStrict xv data)
    {i k : Nat} (hi : i < data.length) (hk : k < data.length) :
    xv data[i] < xv data[k] ↔ i < k := by
  constructor
  · intro hlt
    by_contra hge
    exact absurd (h.sorted.le hk hi (by omega)) (not_le.mpr hlt)
  · exact h.lt hi hk

theorem bump3_strict : AxisStrict PlotTime bump3 := by
  simp [AxisStrict, bump3, PlotTime, mkPoint]

/-- C3 fails on the code: on three samples with strictly increasing times
`0, 1, 2` and elevations `0, 5, 0`, the query at the exact coordinate of the
middle sample returns, for every `DataPoint::interpolate`, the interpolation of
the first and the last sample at the fraction `1/2`; with the linear
interpolation of the specification that is a sample of elevation `0`, not the
middle sample. The same function returns the sample itself at the exact
coordinate of the first and of the last sample. -/
theorem interpolateDataX_exact_not_sample :
    AxisStrict PlotTime bump3
    ∧ dataPoint bump3 1 = some (mkPoint 1 5)
    ∧ findIndexBelowX PlotTime bump3 (PlotTime (mkPoint 1 5)) = some 0
    ∧ findIndexAboveX PlotTime bump3 (PlotTime (mkPoint 1 5)) = some 2
    ∧ (∀ interp : Interp, interpolateDataX interp PlotTime bump3 (PlotTime (mkPoint 1 5))
        = some (interp (mkPoint 0 0) (mkPoint 2 0) (1 / 2)))
    ∧ interpolateDataX DataPoint.interpolate PlotTime bump3 (PlotTime (mkPoint 1 5))
        = some (mkPoint 1 0)
    ∧ mkPoint 1 0 ≠ mkPoint 1 5
    ∧ (∀ interp : Interp, interpolateDataX interp PlotTime bump3 (PlotTime (mkPoint 0 0))
        = some (mkPoint 0 0))
    ∧ (∀ interp : Interp, interpolateDataX interp PlotTime bump3 (PlotTime (mkPoint 2 0))
        = some (mkPoint 2 0)) := by
  refine ⟨bump3_strict, ?_, ?_, ?_, ?_, ?_, ?_, ?_, ?_⟩
  · norm_num [dataPoint_cons, bump3]
  · norm_num [findIndexBelowX, findIndexBelowX.loop, int32, dataPoint_cons, dataPoint_nil,
      bump3, PlotTime, mkPoint, Int.tdiv_eq_ediv]
  · norm_num [findIndexAboveX, findIndexAboveX.loop, int32, dataPoint_cons, dataPoint_nil,
      bump3, PlotTime, mkPoint, Int.tdiv_eq_ediv]
  · intro interp
    norm_num [interpolateDataX, findIndexBelowX, findIndexBelowX.loop, findIndexAboveX,
      findIndexAboveX.loop, int32, dataPoint_cons, dataPoint_nil, bump3, PlotTime, mkPoint,
      Int.tdiv_eq_ediv]
  · norm_num [interpolateDataX, findIndexBelowX, findIndexBelowX.loop, findIndexAboveX,
      findIndexAboveX.loop, int32, dataPoint_cons, dataPoint_nil, bump3, PlotTime, mkPoint,
      DataPoint.interpolate, Int.tdiv_eq_ediv]
  · simp [mkPoint]
  · intro interp
    norm_num [interpolateDataX, findIndexBelowX, findIndexBelowX.loop, findIndexAboveX,
      findIndexAboveX.loop, int32, dataPoint_cons, dataPoint_nil, bump3, PlotTime, mkPoint,
      Int.tdiv_eq_ediv]
  · intro interp
    norm_num [interpolateDataX, findIndexBelowX, findIndexBelowX.loop, findIndexAboveX,
      findIndexAboveX.loop, int32, dataPoint_cons, dataPoint_nil, bump3, PlotTime, mkPoint,
      Int.tdiv_eq_ediv]

/-- What `interpolateDataX` returns at the exact axis coordinate of sample `k` of
a sequence with strictly increasing axis values: sample `k` itself when `k` is
the first or the last index, and for an interior index `DataPoint::interpolate`
of the two neighbours `k-1` and `k+1` at the fraction
`(x_k - x_(k-1)) / (x_(k+1) - x_(k-1))`, in which sample `k` is not read. -/
theorem interpolateDataX_at_sample (interp : Interp) (xv : Channel) (data : List DataPoint)
    (k : Nat) (hn : data.length < 2 ^ 30) (hs : AxisStrict xv data) (hk : k < data.length) :
    (k = 0 ∨ k + 1 = data.length →
      interpolateDataX interp xv data (xv data[k]) = some data[k])
    ∧ (∀ (h0 : 0 < k) (h1 : k + 1 < data.length),
      interpolateDataX interp xv data (xv data[k])
        = some (interp data[k - 1] data[k + 1]
            ((xv data[k] - xv data[k - 1]) / (xv data[k + 1] - xv data[k - 1])))) := by
  have hbelow : ∀ (h0 : 0 < k), ∃ (b : Nat) (_ : b < data.length),
      findIndexBelowX xv data (xv data[k]) = some (b : Int) ∧ b = k - 1 := by
    intro h0
    obtain ⟨b, hb, hfb, hbi⟩ := findIndexBelowX_some xv data (xv data[k]) hn hs.sorted
      ⟨0, by omega, hs.lt (by omega) hk h0⟩
    refine ⟨b, hb, hfb, ?_⟩
    have e1 := (hbi b hb).mp (le_refl _)
    rw [hs.lt_iff hb hk] at e1
    have e2 := (hbi (k - 1) (by omega)).mpr (hs.lt (by omega) hk (by omega))
    omega
  have habove : ∀ (h1 : k + 1 < data.length), ∃ (a : Nat) (_ : a < data.length),
      findIndexAboveX xv data (xv data[k]) = some (a : Int) ∧ a = k + 1 := by
    intro h1
    obtain ⟨a, ha, hfa, hai⟩ := findIndexAboveX_some xv data (xv data[k]) hn hs.sorted
      ⟨k + 1, h1, hs.lt hk h1 (by omega)⟩
    refine ⟨a, ha, hfa, ?_⟩
    have e1 := (hai a ha).mp (le_refl _)
    rw [hs.lt_iff hk ha] at e1
    have e2 := (hai (k + 1) h1).mpr (hs.lt hk h1 (by omega))
    omega
  constructor
  · intro hends
    by_cases h0 : k = 0
    · subst h0
      have hb := findIndexBelowX_none xv data (xv data[0]) hn hs.sorted
        (fun i hi h => by rw [hs.lt_iff hi hk] at h; omega)
      obtain ⟨r, hr, -⟩ := findIndexAboveX_sorted xv data (xv data[0]) hn hs.sorted
      rw [interpolateDataX_first interp xv data _ r hb hr, List.getElem?_eq_getElem hk]
    · have hlast : k + 1 = data.length := by omega
      obtain ⟨b, hb, hfb, -⟩ := hbelow (by omega)
      have ha := findIndexAboveX_none xv data (xv data[k]) hn hs.sorted
        (fun i hi h => by rw [hs.lt_iff hk hi] at h; omega)
      rw [interpolateDataX_last interp xv data _ b hfb ha, List.getElem?_eq_getElem (by omega)]
      congr 1
      simp [← hlast]
  · intro h0 h1
    obtain ⟨b, hb, hfb, rfl⟩ := hbelow h0
    obtain ⟨a, ha, hfa, rfl⟩ := habove h1
    exact interpolateDataX_between interp xv data _ (k - 1) (k + 1) hb ha hfb hfa
      (by
        have := hs.lt hb ha (by omega)
        intro h; linarith)

/-- The query at the coordinate of the interior sample `1` of the three-sample
track with elevations `0, 5, 0`. -/
theorem interpolateDataX_at_sample_witness :
    interpolateDataX DataPoint.interpolate PlotTime bump3 (PlotTime bump3[1])
      = some (DataPoint.interpolate bump3[1 - 1] bump3[1 + 1]
          ((PlotTime bump3[1] - PlotTime bump3[1 - 1])
            / (PlotTime bump3[1 + 1] - PlotTime bump3[1 - 1]))) :=
  (interpolateDataX_at_sample DataPoint.interpolate PlotTime bump3 1 (by decide)
    bump3_strict (by decide)).2 (by decide) (by decide)

/-- C6, as stated, fails: on samples at `0, 1, 2` and `x = 1`, the coordinate of
the middle sample, the pair is `(0, 2)`: the indices are not adjacent and the
upper sample lies strictly above `x`. -/
theorem bracket_not_adjacent :
    AxisStrict PlotTime track3
    ∧ findIndexBelowX PlotTime track3 1 = some 0
    ∧ findIndexAboveX PlotTime track3 1 = some 2
    ∧ (2 : Int) ≠ 0 + 1
    ∧ dataPoint track3 2 = some (mkPoint 2 20) ∧ ¬ (1 : ℚ) ≥ PlotTime (mkPoint 2 20)
    ∧ dataPoint track3 1 = some (mkPoint 1 10) ∧ PlotTime (mkPoint 1 10) = 1 := by
  refine ⟨track3_strict, ?_, ?_, by decide, ?_, by norm_num [PlotTime, mkPoint], ?_, rfl⟩
  · norm_num [findIndexBelowX, findIndexBelowX.loop, int32, dataPoint_cons, dataPoint_nil,
      track3, PlotTime, mkPoint, Int.tdiv_eq_ediv]
  · norm_num [findIndexAboveX, findIndexAboveX.loop, int32, dataPoint_cons, dataPoint_nil,
      track3, PlotTime, mkPoint, Int.tdiv_eq_ediv]
  · norm_num [dataPoint_cons, track3]
  · norm_num [dataPoint_cons, track3]

/-- C6, amended: on a sequence with strictly increasing axis values and for `x`
strictly inside its span, the pair `(below, above)` of the two searches satisfies
`value(sample[below]) < x < value(sample[above])`, strict on both sides; the
indices are adjacent when no sample has coordinate `x`, and when a sample has
coordinate `x` it is the one at `below + 1` and `above = below + 2`. -/
theorem bracket_of_searches (xv : Channel) (data : List DataPoint) (x : ℚ)
    (hn : data.length < 2 ^ 30) (hs : AxisStrict xv data)
    (hlo : ∃ p ∈ data, xv p < x) (hhi : ∃ p ∈ data, x < xv p) :
    ∃ (b a : Nat) (_ : b < data.length) (_ : a < data.length),
      findIndexBelowX xv data x = some (b : Int) ∧ findIndexAboveX xv data x = some (a : Int)
      ∧ xv data[b] < x ∧ x < xv data[a]
      ∧ ((∀ p ∈ data, xv p ≠ x) → a = b + 1)
      ∧ ((∃ p ∈ data, xv p = x) → a = b + 2
          ∧ ∃ p, dataPoint data ((b : Int) + 1) = some p ∧ xv p = x) := by
  obtain ⟨b, a, hb, ha, hfb, hfa, hbi, hai, hxb, hxa, -⟩ :=
    interpolateDataX_interior (fun p _ _ => p) xv data x hn hs.sorted hlo hhi
  have hba : b < a := (hs.lt_iff hb ha).mp (lt_trans hxb hxa)
  have hmid : ∀ (i : Nat) (hi : i < data.length), b < i → i < a → xv data[i] = x := by
    intro i hi h1 h2
    have n1 : ¬ xv data[i] < x := fun h => by have := (hbi i hi).mpr h; omega
    have n2 : ¬ x < xv data[i] := fun h => by have := (hai i hi).mpr h; omega
    exact le_antisymm (not_lt.mp n2) (not_lt.mp n1)
  refine ⟨b, a, hb, ha, hfb, hfa, hxb, hxa, ?_, ?_⟩
  · intro hno
    by_contra hne
    exact hno data[b + 1] (List.getElem_mem _) (hmid (b + 1) (by omega) (by omega) (by omega))
  · rintro ⟨p, hp, hpx⟩
    obtain ⟨k, hk, rfl⟩ := List.getElem_of_mem hp
    have hbk : b < k := by
      by_contra h
      have := (hbi k hk).mp (by omega)
      linarith
    have hka : k < a := by
      by_contra h
      have := (hai k hk).mp (by omega)
      linarith
    have hb1 : b + 1 < data.length := by omega
    have hkb : k = b + 1 := by
      by_contra hne
      have e1 := hmid (b + 1) hb1 (by omega) (by omega)
      have e2 := hs.lt hb1 hk (by omega)
      linarith
    subst hkb
    have hab : a = b + 2 := by
      by_contra hne
      have hb2 : b + 2 < data.length := by omega
      have e1 := hmid (b + 2) hb2 (by omega) (by omega)
      have e2 := hs.lt hb1 hb2 (by omega)
      linarith
    exact ⟨hab, data[b + 1], by simpa using dataPoint_of_lt data (b + 1) hb1, hpx⟩

/-- Witness of the amended C6 on the three-sample track with `x = 1`. -/
theorem bracket_of_searches_witness :
    ∃ (b a : Nat) (_ : b < track3.length) (_ : a < track3.length),
      findIndexBelowX PlotTime track3 1 = some (b : Int)
      ∧ findIndexAboveX PlotTime track3 1 = some (a : Int)
      ∧ PlotTime track3[b] < 1 ∧ 1 < PlotTime track3[a]
      ∧ ((∀ p ∈ track3, PlotTime p ≠ 1) → a = b + 1)
      ∧ ((∃ p ∈ track3, PlotTime p = 1) → a = b + 2
          ∧ ∃ p, dataPoint track3 ((b : Int) + 1) = some p ∧ PlotTime p = 1) :=
  bracket_of_searches PlotTime track3 1 (by decide) track3_strict
    ⟨mkPoint 0 0, by simp [track3], by norm_num [PlotTime, mkPoint]⟩
    ⟨mkPoint 2 20, by simp [track3], by norm_num [PlotTime, mkPoint]⟩


/-- The row of `setMark` in terms of the values it computes on the way. -/
theorem setMark_eq (interp : Interp) (xv tv yv : Channel) (data : List DataPoint)
    (start end_ : ℚ) (dpStart dpEnd dpLow dpHigh dpMin dpMax : DataPoint) (jMin jMax : Int)
    (acc : MarkAcc)
    (h1 : interpolateDataX interp xv data start = some dpStart)
    (h2 : interpolateDataX interp xv data end_ = some dpEnd)
    (h3 : interpolateDataX interp xv data (min start end_) = some dpLow)
    (h4 : interpolateDataX interp xv data (max start end_) = some dpHigh)
    (h5 : findIndexAboveX xv data (min start end_) = some jMin)
    (h6 : findIndexBelowX xv data (max start end_) = some jMax)
    (h7 : dataPoint data jMin = some dpMin)
    (h8 : dataPoint data jMax = some dpMax)
    (h9 : setMark.loop tv yv data (jMax - jMin).toNat jMin
      { sum := (yv dpMin + yv dpLow) / 2 * |tv dpMin - tv dpLow|
        dxSum := |tv dpMin - tv dpLow|, min := yv dpLow, max := yv dpLow } = some acc) :
    setMark interp xv tv yv data start end_ = some (MarkResult.shown
      { value := yv dpEnd
        change := yv dpEnd - yv dpStart
        min := min (min acc.min (yv dpMax)) (yv dpHigh)
        sum := acc.sum + (yv dpHigh + yv dpMax) / 2 * |tv dpHigh - tv dpMax|
        dxSum := acc.dxSum + |tv dpHigh - tv dpMax|
        max := max (max acc.max (yv dpMax)) (yv dpHigh) }) := by
  have hlen : data.length ≠ 0 := by
    intro h0
    rw [List.length_eq_zero.mp h0] at h7
    simp [dataPoint_nil] at h7
  simp [setMark, h1, h2, h3, h4, h5, h6, h7, h8, h9, hlen]

/-- Inside or at the ends of the span of a non-empty sequence sorted by a channel
that `interp` interpolates linearly, the sample returned at `x` has axis value `x`. -/
theorem interpolateDataX_axis_value_closed (interp : Interp) (xv : Channel)
    (data : List DataPoint) (x : ℚ) (hn : data.length < 2 ^ 30) (hne : data ≠ [])
    (hs : AxisSorted xv data)
    (hlin : ∀ p q f, xv (interp p q f) = xv p + f * (xv q - xv p))
    (hfirst : xv (data.head hne) ≤ x) (hlast : x ≤ xv (data.getLast hne)) :
    ∃ dp, interpolateDataX interp xv data x = some dp ∧ xv dp = x := by
  have hpos : 0 < data.length := List.length_pos.mpr hne
  rw [List.head_eq_getElem] at hfirst
  rw [List.getLast_eq_getElem] at hlast
  by_cases hlo : ∃ p ∈ data, xv p < x
  · by_cases hhi : ∃ p ∈ data, x < xv p
    · obtain ⟨b, a, hb, ha, -, -, -, -, hxb, hxa, hres⟩ :=
        interpolateDataX_interior interp xv data x hn hs hlo hhi
      refine ⟨_, hres, ?_⟩
      rw [hlin]
      have hne0 : xv data[a] - xv data[b] ≠ 0 := by intro h; linarith
      field_simp
    · obtain ⟨b, hb, hfb, -⟩ := findIndexBelowX_some xv data x hn hs (mem_iff_getElem_nat.mp hlo)
      have ha := findIndexAboveX_none xv data x hn hs
        (fun i hi h => hhi ⟨data[i], List.getElem_mem hi, h⟩)
      refine ⟨data[data.length - 1], ?_, ?_⟩
      · rw [interpolateDataX_last interp xv data x b hfb ha,
          List.getElem?_eq_getElem (by omega)]
      · exact le_antisymm
          (not_lt.mp fun h => hhi ⟨_, List.getElem_mem _, h⟩) hlast
  · have hb := findIndexBelowX_none xv data x hn hs
      (fun i hi h => hlo ⟨data[i], List.getElem_mem hi, h⟩)
    obtain ⟨r, hr, -⟩ := findIndexAboveX_sorted xv data x hn hs
    refine ⟨data[0], ?_, ?_⟩
    · rw [interpolateDataX_first interp xv data x r hb hr, List.getElem?_eq_getElem hpos]
    · exact le_antisymm hfirst
        (not_lt.mp fun h => hlo ⟨_, List.getElem_mem _, h⟩)

/-- A sample returned by `interpolateDataX` is a sample of the sequence or
`DataPoint::interpolate` of two of them. -/
theorem interpolateDataX_cases (interp : Interp) (xv : Channel) (data : List DataPoint)
    (x : ℚ) (dp : DataPoint) (h : interpolateDataX interp xv data x = some dp) :
    dp ∈ data ∨ ∃ p ∈ data, ∃ q ∈ data, ∃ f, dp = interp p q f := by
  have hmem : ∀ (i : Int) (p : DataPoint), dataPoint data i = some p → p ∈ data := by
    intro i p hp
    obtain ⟨k, hk, -, rfl⟩ := dataPoint_eq_some_iff.mp hp
    exact List.getElem_mem hk
  unfold interpolateDataX at h
  split at h
  · split_ifs at h with h1 h2
    · exact Or.inl (hmem _ _ h)
    · exact Or.inl (hmem _ _ h)
    · split at h
      · rename_i dp1 dp2 hd1 hd2
        simp only [] at h
        split_ifs at h
        exact Or.inr ⟨dp1, hmem _ _ hd1, dp2, hmem _ _ hd2, _, (Option.some.inj h).symm⟩
      · exact absurd h (by simp)
  · exact absurd h (by simp)

/-- A channel that is affine in elapsed time on the samples and interpolated
linearly stays affine on every sample `interpolateDataX` returns. -/
theorem interpolateDataX_affine (interp : Interp) (xv tv yv : Channel) (data : List DataPoint)
    (x a b : ℚ) (dp : DataPoint)
    (hlin : ∀ p q f, tv (interp p q f) = tv p + f * (tv q - tv p))
    (hylin : ∀ p q f, yv (interp p q f) = yv p + f * (yv q - yv p))
    (hy : ∀ p ∈ data, yv p = a + b * tv p)
    (h : interpolateDataX interp xv data x = some dp) : yv dp = a + b * tv dp := by
  rcases interpolateDataX_cases interp xv data x dp h with hmem | ⟨p, hp, q, hq, f, rfl⟩
  · exact hy dp hmem
  · rw [hlin, hylin, hy p hp, hy q hq]; ring

/-- The loop of `setMark` over samples `j .. j + count` of a channel that is
affine and non-decreasing in elapsed time: the sum grows by the exact integral,
the weight by the elapsed time, and the running bounds are kept. -/
theorem setMark_loop_affine (tv yv : Channel) (data : List DataPoint) (a b : ℚ)
    (hs : AxisSorted tv data) (hy : ∀ p ∈ data, yv p = a + b * tv p) (hb : 0 ≤ b)
    (count j : Nat) (hj : j + count < data.length) (acc : MarkAcc) (L U : ℚ)
    (hL : acc.min = L) (hLj : L ≤ yv data[j]) (hU : acc.max ≤ U)
    (hUj : yv data[j + count] ≤ U) :
    ∃ acc', setMark.loop tv yv data count (j : Int) acc = some acc'
      ∧ acc'.sum = acc.sum + (a * (tv data[j + count] - tv data[j])
          + b * ((tv data[j + count]) ^ 2 - (tv data[j]) ^ 2) / 2)
      ∧ acc'.dxSum = acc.dxSum + (tv data[j + count] - tv data[j])
      ∧ acc'.min = L ∧ acc'.max ≤ U := by
  induction count generalizing j acc with
  | zero =>
    refine ⟨acc, rfl, ?_, ?_, hL, hU⟩ <;> simp
  | succ c ih =>
    have hj0 : j < data.length := by omega
    have hj1 : j + 1 < data.length := by omega
    have hle : tv data[j] ≤ tv data[j + 1] := hs.le hj0 hj1 (by omega)
    have hle2 : tv data[j + 1] ≤ tv data[j + 1 + c] := hs.le hj1 (by omega) (by omega)
    have hidx : j + 1 + c = j + (c + 1) := by omega
    have hd0 : dataPoint data (j : Int) = some data[j] := dataPoint_of_lt data j hj0
    have hd1 : dataPoint data ((j : Int) + 1) = some data[j + 1] := by
      simpa using dataPoint_of_lt data (j + 1) hj1
    have hg : ∀ (i : Nat) (hi : i < data.length), yv data[i] = a + b * tv data[i] :=
      fun i hi => hy _ (List.getElem_mem hi)
    have hyj : yv data[j] ≤ yv data[j + 1] := by
      rw [hg, hg]; nlinarith
    obtain ⟨acc', hacc, hsum, hdx, hmin, hmax⟩ := ih (j + 1) (by omega)
      { sum := acc.sum + (yv data[j + 1] + yv data[j]) / 2 * |tv data[j + 1] - tv data[j]|
        dxSum := acc.dxSum + |tv data[j + 1] - tv data[j]|
        min := min acc.min (yv data[j])
        max := max acc.max (yv data[j]) }
      (by simp [hL, hLj]) (le_trans hLj hyj)
      (by
        have : yv data[j] ≤ yv data[j + 1 + c] := by
          rw [hg, hg]; nlinarith
        simp only [hidx] at this
        exact max_le hU (le_trans this hUj))
      (by simpa only [hidx] using hUj)
    have habs : |tv data[j + 1] - tv data[j]| = tv data[j + 1] - tv data[j] :=
      abs_of_nonneg (by linarith)
    refine ⟨acc', ?_, ?_, ?_, hmin, hmax⟩
    · simp only [setMark.loop, hd0, hd1]
      have : ((j : Int) + 1) = ((j + 1 : Nat) : Int) := by simp
      rw [this]; exact hacc
    · rw [hsum]; simp only [hidx, habs, hg]; ring
    · rw [hdx]; simp only [hidx, habs]; ring

/-- C7 (time-weighted mean of a linear channel): with elapsed time as the axis,
strictly increasing times, a series channel `y = a + b * t` with `b >= 0`, and an
interval `[s, e]` inside the span, `s < e`, that has a sample strictly inside it,
`setMark(s, e)` shows `min = y(s)`, `max = y(e)`, `dxSum = e - s`,
`mean = sum / dxSum = (y(s) + y(e)) / 2` and `delta = y(e) - y(s)`. The channel is
affine on the samples and, as elapsed time, interpolated linearly by
`DataPoint::interpolate`. -/
theorem setMark_affine (interp : Interp) (tv yv : Channel) (data : List DataPoint)
    (a b s e : ℚ) (hn : data.length < 2 ^ 30) (hne : data ≠ [])
    (hs : AxisStrict tv data)
    (hlin : ∀ p q f, tv (interp p q f) = tv p + f * (tv q - tv p))
    (hylin : ∀ p q f, yv (interp p q f) = yv p + f * (yv q - yv p))
    (hy : ∀ p ∈ data, yv p = a + b * tv p) (hb : 0 ≤ b)
    (hfirst : tv (data.head hne) ≤ s) (hse : s < e) (hlast : e ≤ tv (data.getLast hne))
    (hin : ∃ p ∈ data, s < tv p ∧ tv p < e) :
    ∃ row, setMark interp tv tv yv data s e = some (MarkResult.shown row)
      ∧ row.min = a + b * s ∧ row.max = a + b * e ∧ row.dxSum = e - s
      ∧ row.mean = some ((a + b * s + (a + b * e)) / 2)
      ∧ row.change = (a + b * e) - (a + b * s) := by
  have hso := hs.sorted
  have hmono : ∀ u v : ℚ, u ≤ v → a + b * u ≤ a + b * v := fun u v huv => by
    have := mul_le_mul_of_nonneg_left huv hb
    linarith
  obtain ⟨dpS, hS, htS⟩ := interpolateDataX_axis_value_closed interp tv data s hn hne hso hlin
    hfirst (le_trans (le_of_lt hse) hlast)
  obtain ⟨dpE, hE, htE⟩ := interpolateDataX_axis_value_closed interp tv data e hn hne hso hlin
    (le_trans hfirst (le_of_lt hse)) hlast
  have hg : ∀ (i : Nat) (hi : i < data.length), yv data[i] = a + b * tv data[i] :=
    fun i hi => hy _ (List.getElem_mem hi)
  have hyS : yv dpS = a + b * s := by
    rw [interpolateDataX_affine interp tv tv yv data s a b dpS hlin hylin hy hS, htS]
  have hyE : yv dpE = a + b * e := by
    rw [interpolateDataX_affine interp tv tv yv data e a b dpE hlin hylin hy hE, htE]
  have hmin : min s e = s := min_eq_left (le_of_lt hse)
  have hmax : max s e = e := max_eq_right (le_of_lt hse)
  obtain ⟨p, hp, hsp, hpe⟩ := hin
  obtain ⟨k, hk, rfl⟩ := List.getElem_of_mem hp
  obtain ⟨jm, hjm, hfm, hmi⟩ := findIndexAboveX_some tv data s hn hso ⟨k, hk, hsp⟩
  obtain ⟨jM, hjM, hfM, hMi⟩ := findIndexBelowX_some tv data e hn hso ⟨k, hk, hpe⟩
  have hmk : jm ≤ k := (hmi k hk).mpr hsp
  have hkM : k ≤ jM := (hMi k hk).mpr hpe
  have htm : s < tv data[jm] := (hmi jm hjm).mp (le_refl _)
  have htM : tv data[jM] < e := (hMi jM hjM).mp (le_refl _)
  have hcount : ((jM : Int) - (jm : Int)).toNat = jM - jm := by omega
  have hidx : jm + (jM - jm) = jM := by omega
  have hmM : tv data[jm] ≤ tv data[jM] := hso.le hjm hjM (by omega)
  have hym : a + b * s ≤ yv data[jm] := by
    rw [hg jm hjm]; exact hmono _ _ (le_of_lt htm)
  have hyM : yv data[jM] ≤ a + b * e := by
    rw [hg jM hjM]; exact hmono _ _ (le_of_lt htM)
  have hyM2 : a + b * s ≤ yv data[jM] := by
    rw [hg jM hjM]; exact hmono _ _ (by linarith)
  have hse2 : a + b * s ≤ a + b * e := hmono _ _ (le_of_lt hse)
  obtain ⟨acc, hacc, hsum, hdx, haccmin, haccmax⟩ := setMark_loop_affine tv yv data a b hso hy hb
    (jM - jm) jm (by omega)
    { sum := (yv data[jm] + yv dpS) / 2 * |tv data[jm] - tv dpS|
      dxSum := |tv data[jm] - tv dpS|, min := yv dpS, max := yv dpS }
    (a + b * s) (a + b * e) hyS hym (by show yv dpS ≤ a + b * e; rw [hyS]; exact hse2)
    (by simp only [hidx]; exact hyM)
  simp only [hidx] at hsum hdx
  have hrow := setMark_eq interp tv tv yv data s e dpS dpE dpS dpE data[jm] data[jM] jm jM acc
    hS hE (by rw [hmin]; exact hS) (by rw [hmax]; exact hE) (by rw [hmin]; exact hfm)
    (by rw [hmax]; exact hfM) (dataPoint_of_lt data jm hjm) (dataPoint_of_lt data jM hjM)
    (by rw [hcount]; exact hacc)
  have habs1 : |tv data[jm] - tv dpS| = tv data[jm] - s := by
    rw [htS]; exact abs_of_nonneg (by linarith)
  have habs2 : |tv dpE - tv data[jM]| = e - tv data[jM] := by
    rw [htE]; exact abs_of_nonneg (by linarith)
  have hd : acc.dxSum + |tv dpE - tv data[jM]| = e - s := by
    rw [hdx, habs1, habs2]; ring
  have hne0 : e - s ≠ 0 := by intro h; linarith
  refine ⟨_, hrow, ?_, ?_, hd, ?_, ?_⟩
  · show min (min acc.min (yv data[jM])) (yv dpE) = a + b * s
    rw [haccmin, hyE, min_eq_left hyM2, min_eq_left hse2]
  · show max (max acc.max (yv data[jM])) (yv dpE) = a + b * e
    rw [hyE]
    exact max_eq_right (max_le haccmax hyM)
  · show (if acc.dxSum + |tv dpE - tv data[jM]| = 0 then none
      else some ((acc.sum + (yv dpE + yv data[jM]) / 2 * |tv dpE - tv data[jM]|)
        / (acc.dxSum + |tv dpE - tv data[jM]|))) = some ((a + b * s + (a + b * e)) / 2)
    rw [hd, if_neg hne0]
    congr 1
    rw [div_eq_iff hne0, hsum, habs1, habs2, hyS, hyE, hg jm hjm, hg jM hjM]
    ring
  · show yv dpE - yv dpS = a + b * e - (a + b * s)
    rw [hyS, hyE]

/-- Witness of C7, the scenario of the claim: samples at `t = 0, 1, 2` with
values `0, 10, 20` and the interval `[0, 2]` give min `0`, max `20`, weight `2`,
mean `10` and delta `20`. -/
theorem setMark_affine_witness :
    ∃ row, setMark DataPoint.interpolate PlotTime PlotTime PlotElevation track3 0 2
        = some (MarkResult.shown row)
      ∧ row.min = 0 ∧ row.max = 20 ∧ row.dxSum = 2 ∧ row.mean = some 10
      ∧ row.change = 20 := by
  obtain ⟨row, h, h1, h2, h3, h4, h5⟩ :=
    setMark_affine DataPoint.interpolate PlotTime PlotElevation track3 0 10 0 2
      (by decide) (by decide) track3_strict interpolate_time_linear (fun _ _ _ => rfl)
      (by norm_num [track3, PlotElevation, PlotTime, mkPoint]) (by norm_num)
      (by norm_num [track3, PlotTime, mkPoint]) (by norm_num)
      (by norm_num [track3, PlotTime, mkPoint])
      ⟨mkPoint 1 10, by simp [track3], by norm_num [PlotTime, mkPoint],
        by norm_num [PlotTime, mkPoint]⟩
  refine ⟨row, h, ?_, ?_, ?_, ?_, ?_⟩
  · rw [h1]; norm_num
  · rw [h2]; norm_num
  · rw [h3]; norm_num
  · rw [h4]; norm_num
  · rw [h5]; norm_num

theorem findIndexBelowX_nil (xv : Channel) (x : ℚ) : findIndexBelowX xv [] x = some (-1) := by
  have hc : ¬ ((-1 : Int) + 1 ≠ 0) := by decide
  show findIndexBelowX.loop xv [] x (0 + 1) (-1) 0 = _
  rw [findIndexBelowX.loop, if_neg hc]

theorem findIndexAboveX_nil (xv : Channel) (x : ℚ) : findIndexAboveX xv [] x = some 0 := by
  have hc : ¬ ((-1 : Int) + 1 ≠ 0) := by decide
  show findIndexAboveX.loop xv [] x (0 + 1) (-1) 0 = _
  rw [findIndexAboveX.loop, if_neg hc]

theorem interpolateDataX_nil (interp : Interp) (xv : Channel) (x : ℚ) :
    interpolateDataX interp xv [] x = none := by
  have h := interpolateDataX_first interp xv [] x 0 (findIndexBelowX_nil xv x)
    (findIndexAboveX_nil xv x)
  rw [h]; rfl

theorem interpolateDataX_length_pos (interp : Interp) (xv : Channel) (data : List DataPoint)
    (x : ℚ) (dp : DataPoint) (h : interpolateDataX interp xv data x = some dp) :
    data.length ≠ 0 := by
  intro h0
  rw [List.length_eq_zero.mp h0, interpolateDataX_nil] at h
  exact absurd h (by simp)

/-- `setMark` faults when the index `jMin` it reads is not an index of a sample. -/
theorem setMark_fault_jMin (interp : Interp) (xv tv yv : Channel) (data : List DataPoint)
    (start end_ : ℚ) (jMin : Int)
    (h5 : findIndexAboveX xv data (min start end_) = some jMin)
    (h7 : dataPoint data jMin = none) :
    setMark interp xv tv yv data start end_ = none := by
  unfold setMark
  cases h1 : interpolateDataX interp xv data start with
  | none => rfl
  | some dpStart =>
    have hne := interpolateDataX_length_pos interp xv data start dpStart h1
    cases h2 : interpolateDataX interp xv data end_ with
    | none => rfl
    | some dpEnd =>
      simp only [Option.bind_eq_bind, Option.some_bind, if_neg hne]
      cases h3 : interpolateDataX interp xv data (min start end_) with
      | none => rfl
      | some dpLow =>
        cases h4 : interpolateDataX interp xv data (max start end_) with
        | none => rfl
        | some dpHigh =>
          simp only [Option.some_bind, h5, h7, Option.none_bind]
          cases findIndexBelowX xv data (max start end_) <;> rfl

/-- `setMark` faults when the index `jMax` it reads is not an index of a sample. -/
theorem setMark_fault_jMax (interp : Interp) (xv tv yv : Channel) (data : List DataPoint)
    (start end_ : ℚ) (jMax : Int)
    (h6 : findIndexBelowX xv data (max start end_) = some jMax)
    (h8 : dataPoint data jMax = none) :
    setMark interp xv tv yv data start end_ = none := by
  unfold setMark
  cases h1 : interpolateDataX interp xv data start with
  | none => rfl
  | some dpStart =>
    have hne := interpolateDataX_length_pos interp xv data start dpStart h1
    cases h2 : interpolateDataX interp xv data end_ with
    | none => rfl
    | some dpEnd =>
      simp only [Option.bind_eq_bind, Option.some_bind, if_neg hne]
      cases h3 : interpolateDataX interp xv data (min start end_) with
      | none => rfl
      | some dpLow =>
        cases h4 : interpolateDataX interp xv data (max start end_) with
        | none => rfl
        | some dpHigh =>
          cases h5 : findIndexAboveX xv data (min start end_) with
          | none => rfl
          | some jMin =>
            cases h7 : dataPoint data jMin with
            | none => simp only [Option.some_bind, h6, h7, Option.none_bind]
            | some dpMin => simp only [Option.some_bind, h6, h7, h8, Option.none_bind]

theorem AxisSorted_single (xv : Channel) (p : DataPoint) : AxisSorted xv [p] :=
  List.pairwise_singleton _ p

/-- On a sequence of one sample every query returns that sample. -/
theorem interpolateDataX_single (interp : Interp) (xv : Channel) (p : DataPoint) (x : ℚ) :
    interpolateDataX interp xv [p] x = some p := by
  have hn : [p].length < 2 ^ 30 := by
    rw [List.length_singleton]; norm_num
  have hs := AxisSorted_single xv p
  have hidx : ∀ (i : Nat), i < [p].length → i = 0 := fun i hi => by
    rw [List.length_singleton] at hi; omega
  by_cases h1 : xv p < x
  · obtain ⟨b, -, hfb, -⟩ := findIndexBelowX_some xv [p] x hn hs ⟨0, by simp, h1⟩
    have ha := findIndexAboveX_none xv [p] x hn hs (fun i hi h => by
      have hi0 := hidx i hi
      subst hi0
      exact absurd h (not_lt.mpr (le_of_lt h1)))
    rw [interpolateDataX_last interp xv [p] x b hfb ha]
    rfl
  · have hb := findIndexBelowX_none xv [p] x hn hs (fun i hi h => by
      have hi0 := hidx i hi
      subst hi0
      exact h1 h)
    obtain ⟨r, hr, -⟩ := findIndexAboveX_sorted xv [p] x hn hs
    rw [interpolateDataX_first interp xv [p] x r hb hr]
    rfl

/-- Every row `setMark` shows is built from the values the source names. -/
theorem setMark_shown_inv (interp : Interp) (xv tv yv : Channel) (data : List DataPoint)
    (start end_ : ℚ) (row : MarkStats)
    (h : setMark interp xv tv yv data start end_ = some (MarkResult.shown row)) :
    ∃ (dpStart dpEnd dpLow dpHigh dpMin dpMax : DataPoint) (jMin jMax : Int) (acc : MarkAcc),
      interpolateDataX interp xv data start = some dpStart
      ∧ interpolateDataX interp xv data end_ = some dpEnd
      ∧ interpolateDataX interp xv data (min start end_) = some dpLow
      ∧ interpolateDataX interp xv data (max start end_) = some dpHigh
      ∧ findIndexAboveX xv data (min start end_) = some jMin
      ∧ findIndexBelowX xv data (max start end_) = some jMax
      ∧ dataPoint data jMin = some dpMin
      ∧ dataPoint data jMax = some dpMax
      ∧ setMark.loop tv yv data (jMax - jMin).toNat jMin
          { sum := (yv dpMin + yv dpLow) / 2 * |tv dpMin - tv dpLow|
            dxSum := |tv dpMin - tv dpLow|, min := yv dpLow, max := yv dpLow } = some acc
      ∧ row = { value := yv dpEnd
                change := yv dpEnd - yv dpStart
                min := min (min acc.min (yv dpMax)) (yv dpHigh)
                sum := acc.sum + (yv dpHigh + yv dpMax) / 2 * |tv dpHigh - tv dpMax|
                dxSum := acc.dxSum + |tv dpHigh - tv dpMax|
                max := max (max acc.max (yv dpMax)) (yv dpHigh) } := by
  unfold setMark at h
  cases h1 : interpolateDataX interp xv data start with
  | none =>
    simp only [h1, Option.bind_eq_bind, Option.none_bind] at h
    exact Option.noConfusion h
  | some dpStart =>
    have hne := interpolateDataX_length_pos interp xv data start dpStart h1
    cases h2 : interpolateDataX interp xv data end_ with
    | none =>
      simp only [h1, h2, Option.bind_eq_bind, Option.some_bind, Option.none_bind] at h
      exact Option.noConfusion h
    | some dpEnd =>
      cases h3 : interpolateDataX interp xv data (min start end_) with
      | none =>
        simp only [h1, h2, h3, Option.bind_eq_bind, Option.some_bind, if_neg hne,
          Option.none_bind] at h
        exact Option.noConfusion h
      | some dpLow =>
        cases h4 : interpolateDataX interp xv data (max start end_) with
        | none =>
          simp only [h1, h2, h3, h4, Option.bind_eq_bind, Option.some_bind, if_neg hne,
            Option.none_bind] at h
          exact Option.noConfusion h
        | some dpHigh =>
          cases h5 : findIndexAboveX xv data (min start end_) with
          | none =>
            simp only [h1, h2, h3, h4, h5, Option.bind_eq_bind, Option.some_bind, if_neg hne,
              Option.none_bind] at h
            exact Option.noConfusion h
          | some jMin =>
            cases h6 : findIndexBelowX xv data (max start end_) with
            | none =>
              simp only [h1, h2, h3, h4, h5, h6, Option.bind_eq_bind, Option.some_bind,
                if_neg hne, Option.none_bind] at h
              exact Option.noConfusion h
            | some jMax =>
              cases h7 : dataPoint data jMin with
              | none =>
                simp only [h1, h2, h3, h4, h5, h6, h7, Option.bind_eq_bind, Option.some_bind,
                  if_neg hne, Option.none_bind] at h
                exact Option.noConfusion h
              | some dpMin =>
                cases h8 : dataPoint data jMax with
                | none =>
                  simp only [h1, h2, h3, h4, h5, h6, h7, h8, Option.bind_eq_bind,
                    Option.some_bind, if_neg hne, Option.none_bind] at h
                  exact Option.noConfusion h
                | some dpMax =>
                  cases h9 : setMark.loop tv yv data (jMax - jMin).toNat jMin
                      { sum := (yv dpMin + yv dpLow) / 2 * |tv dpMin - tv dpLow|
                        dxSum := |tv dpMin - tv dpLow|, min := yv dpLow, max := yv dpLow } with
                  | none =>
                    simp only [h1, h2, h3, h4, h5, h6, h7, h8, h9, Option.bind_eq_bind,
                      Option.some_bind, if_neg hne, Option.none_bind] at h
                    exact Option.noConfusion h
                  | some acc =>
                    simp only [h1, h2, h3, h4, h5, h6, h7, h8, h9, Option.bind_eq_bind,
                      Option.some_bind, if_neg hne] at h
                    refine ⟨dpStart, dpEnd, dpLow, dpHigh, dpMin, dpMax, jMin, jMax, acc,
                      rfl, rfl, rfl, rfl, rfl, rfl, h7, h8, h9, ?_⟩
                    have h' := Option.some.inj h
                    exact (MarkResult.shown.inj h').symm


/-- One trapezoid keeps the sum between the least and the greatest visited value
times the weight. -/
theorem trapezoid_step (y2 : ℚ) {sum dxSum lo hi y1 d : ℚ} (hd : 0 ≤ d) (hdx : 0 ≤ dxSum)
    (hlo : min lo y1 * dxSum ≤ sum) (hhi : sum ≤ max hi y1 * dxSum) :
    min (min lo y1) y2 * (dxSum + d) ≤ sum + (y2 + y1) / 2 * d
    ∧ sum + (y2 + y1) / 2 * d ≤ max (max hi y1) y2 * (dxSum + d) := by
  have a1 : min (min lo y1) y2 ≤ min lo y1 := min_le_left _ _
  have a2 : min (min lo y1) y2 ≤ y2 := min_le_right _ _
  have a3 : min lo y1 ≤ y1 := min_le_right _ _
  have b1 : max hi y1 ≤ max (max hi y1) y2 := le_max_left _ _
  have b2 : y2 ≤ max (max hi y1) y2 := le_max_right _ _
  have b3 : y1 ≤ max hi y1 := le_max_right _ _
  have c1 := mul_nonneg (sub_nonneg.mpr a1) hdx
  have c2 : 0 ≤ ((y2 + y1) / 2 - min (min lo y1) y2) * d :=
    mul_nonneg (by linarith) hd
  have c3 := mul_nonneg (sub_nonneg.mpr b1) hdx
  have c4 : 0 ≤ (max (max hi y1) y2 - (y2 + y1) / 2) * d :=
    mul_nonneg (by linarith) hd
  constructor <;> nlinarith

/-- The loop of `setMark` keeps the sum between the least and the greatest
visited value times the weight; it ends at index `j + count`. -/
theorem setMark_loop_bounds (tv yv : Channel) (data : List DataPoint) (count : Nat) (j : Int)
    (acc acc' : MarkAcc) (dpj : DataPoint) (hj : dataPoint data j = some dpj)
    (h : setMark.loop tv yv data count j acc = some acc')
    (hdx : 0 ≤ acc.dxSum) (hlo : min acc.min (yv dpj) * acc.dxSum ≤ acc.sum)
    (hhi : acc.sum ≤ max acc.max (yv dpj) * acc.dxSum) :
    ∃ dpe, dataPoint data (j + count) = some dpe ∧ 0 ≤ acc'.dxSum
      ∧ min acc'.min (yv dpe) * acc'.dxSum ≤ acc'.sum
      ∧ acc'.sum ≤ max acc'.max (yv dpe) * acc'.dxSum := by
  induction count generalizing j acc dpj with
  | zero =>
    have : acc' = acc := (Option.some.inj h).symm
    subst this
    exact ⟨dpj, by simpa using hj, hdx, hlo, hhi⟩
  | succ c ih =>
    rw [setMark.loop, hj] at h
    cases h2 : dataPoint data (j + 1) with
    | none => rw [h2] at h; exact Option.noConfusion h
    | some dp2 =>
      rw [h2] at h
      have hd : 0 ≤ |tv dp2 - tv dpj| := abs_nonneg _
      obtain ⟨s1, s2⟩ := trapezoid_step (yv dp2) hd hdx hlo hhi
      obtain ⟨dpe, he, r1, r2, r3⟩ := ih (j + 1) _ dp2 h2 h (add_nonneg hdx hd) s1 s2
      refine ⟨dpe, ?_, r1, r2, r3⟩
      rw [← he]; congr 1; push_cast; ring

/-- When `jMin <= jMax`, that is when `setMark` reads an inner sample, the sum it
shows lies between `min * dxSum` and `max * dxSum`, so that a mean with a value
lies between the min and the max shown. -/
theorem setMark_mean_between (interp : Interp) (xv tv yv : Channel) (data : List DataPoint)
    (start end_ : ℚ) (row : MarkStats) (jMin jMax : Int)
    (h5 : findIndexAboveX xv data (min start end_) = some jMin)
    (h6 : findIndexBelowX xv data (max start end_) = some jMax)
    (hle : jMin ≤ jMax)
    (h : setMark interp xv tv yv data start end_ = some (MarkResult.shown row)) :
    row.min * row.dxSum ≤ row.sum ∧ row.sum ≤ row.max * row.dxSum
    ∧ ∀ m, row.mean = some m → row.min ≤ m ∧ m ≤ row.max := by
  obtain ⟨dpStart, dpEnd, dpLow, dpHigh, dpMin, dpMax, jMin', jMax', acc, -, -, -, -, e5, e6,
    h7, h8, h9, rfl⟩ := setMark_shown_inv interp xv tv yv data start end_ row h
  have hm : jMin' = jMin := Option.some.inj (e5.symm.trans h5)
  have hM : jMax' = jMax := Option.some.inj (e6.symm.trans h6)
  subst hm hM
  have hd0 : 0 ≤ |tv dpMin - tv dpLow| := abs_nonneg _
  have i1 : min (yv dpLow) (yv dpMin) * |tv dpMin - tv dpLow|
      ≤ (yv dpMin + yv dpLow) / 2 * |tv dpMin - tv dpLow| :=
    mul_le_mul_of_nonneg_right (by
      have := min_le_left (yv dpLow) (yv dpMin)
      have := min_le_right (yv dpLow) (yv dpMin)
      linarith) hd0
  have i2 : (yv dpMin + yv dpLow) / 2 * |tv dpMin - tv dpLow|
      ≤ max (yv dpLow) (yv dpMin) * |tv dpMin - tv dpLow| :=
    mul_le_mul_of_nonneg_right (by
      have := le_max_left (yv dpLow) (yv dpMin)
      have := le_max_right (yv dpLow) (yv dpMin)
      linarith) hd0
  obtain ⟨dpe, he, r1, r2, r3⟩ := setMark_loop_bounds tv yv data (jMax' - jMin').toNat jMin'
    _ acc dpMin h7 h9 hd0 i1 i2
  have hidx : jMin' + ((jMax' - jMin').toNat : Int) = jMax' := by omega
  rw [hidx, h8] at he
  have hdp : dpe = dpMax := (Option.some.inj he).symm
  subst hdp
  have hd2 : 0 ≤ |tv dpHigh - tv dpe| := abs_nonneg _
  obtain ⟨s1, s2⟩ := trapezoid_step (yv dpHigh) hd2 r1 r2 r3
  refine ⟨s1, s2, ?_⟩
  intro m hmean
  unfold MarkStats.mean at hmean
  split_ifs at hmean with hz
  have hm := Option.some.inj hmean
  have hpos : 0 < acc.dxSum + |tv dpHigh - tv dpe| :=
    lt_of_le_of_ne (add_nonneg r1 hd2) (Ne.symm hz)
  rw [← hm]
  exact ⟨(le_div_iff₀ hpos).mpr s1, (div_le_iff₀ hpos).mpr s2⟩

/-- A zero-width interval that `setMark` shows has delta `0`, and the value
shown is the channel at the sample interpolated there. -/
theorem setMark_zero_width_delta (interp : Interp) (xv tv yv : Channel)
    (data : List DataPoint) (t : ℚ) (row : MarkStats)
    (h : setMark interp xv tv yv data t t = some (MarkResult.shown row)) :
    row.change = 0 ∧ (interpolateDataX interp xv data t).map yv = some row.value := by
  obtain ⟨dpStart, dpEnd, dpLow, dpHigh, dpMin, dpMax, jMin, jMax, acc, e1, e2, -, -, -, -,
    -, -, -, rfl⟩ := setMark_shown_inv interp xv tv yv data t t row h
  have : dpStart = dpEnd := Option.some.inj (e1.symm.trans e2)
  subst this
  exact ⟨sub_self _, by rw [e1]; rfl⟩

theorem ramp2_interpolate_tenth :
    interpolateDataX DataPoint.interpolate PlotTime ramp2 (1 / 10)
      = some (mkPoint (1 / 10) 10) := by
  norm_num [interpolateDataX, findIndexBelowX, findIndexBelowX.loop, findIndexAboveX,
    findIndexAboveX.loop, int32, dataPoint_cons, dataPoint_nil, ramp2, PlotTime, mkPoint,
    DataPoint.interpolate, Int.tdiv_eq_ediv]

theorem ramp2_interpolate_fifth :
    interpolateDataX DataPoint.interpolate PlotTime ramp2 (1 / 5)
      = some (mkPoint (1 / 5) 20) := by
  norm_num [interpolateDataX, findIndexBelowX, findIndexBelowX.loop, findIndexAboveX,
    findIndexAboveX.loop, int32, dataPoint_cons, dataPoint_nil, ramp2, PlotTime, mkPoint,
    DataPoint.interpolate, Int.tdiv_eq_ediv]

theorem ramp2_interpolate_quarter :
    interpolateDataX DataPoint.interpolate PlotTime ramp2 (1 / 4)
      = some (mkPoint (1 / 4) 25) := by
  norm_num [interpolateDataX, findIndexBelowX, findIndexBelowX.loop, findIndexAboveX,
    findIndexAboveX.loop, int32, dataPoint_cons, dataPoint_nil, ramp2, PlotTime, mkPoint,
    DataPoint.interpolate, Int.tdiv_eq_ediv]

/-- C8 fails on the code: on two samples at `t = 0, 1` with elevations `0, 100`
and the interval `[1/10, 1/5]`, which lies between the two samples, `setMark`
shows min `0`, max `20` and the mean `sum / dxSum = 515/11`, which is above the
max. -/
theorem setMark_mean_above_max :
    AxisSorted PlotTime ramp2
    ∧ setMark DataPoint.interpolate PlotTime PlotTime PlotElevation ramp2 (1 / 10) (1 / 5)
      = some (MarkResult.shown
          { value := 20, change := 10, min := 0, sum := 103 / 2, dxSum := 11 / 10, max := 20 })
    ∧ MarkStats.mean
        { value := 20, change := 10, min := 0, sum := 103 / 2, dxSum := 11 / 10, max := 20 }
      = some (515 / 11)
    ∧ (20 : ℚ) < 515 / 11 := by
  have hmin : min (1 / 10 : ℚ) (1 / 5) = 1 / 10 := by norm_num
  have hmax : max (1 / 10 : ℚ) (1 / 5) = 1 / 5 := by norm_num
  have h := setMark_eq DataPoint.interpolate PlotTime PlotTime PlotElevation ramp2
    (1 / 10) (1 / 5) (mkPoint (1 / 10) 10) (mkPoint (1 / 5) 20) (mkPoint (1 / 10) 10)
    (mkPoint (1 / 5) 20) (mkPoint 1 100) (mkPoint 0 0) 1 0
    { sum := (100 + 10) / 2 * |1 - 1 / 10|, dxSum := |1 - 1 / 10|, min := 10, max := 10 }
    ramp2_interpolate_tenth ramp2_interpolate_fifth
    (by rw [hmin]; exact ramp2_interpolate_tenth) (by rw [hmax]; exact ramp2_interpolate_fifth)
    (by rw [hmin]; norm_num [findIndexAboveX, findIndexAboveX.loop, int32, dataPoint_cons,
      dataPoint_nil, ramp2, PlotTime, mkPoint, Int.tdiv_eq_ediv])
    (by rw [hmax]; norm_num [findIndexBelowX, findIndexBelowX.loop, int32, dataPoint_cons,
      dataPoint_nil, ramp2, PlotTime, mkPoint, Int.tdiv_eq_ediv])
    (by norm_num [dataPoint_cons, dataPoint_nil, ramp2])
    (by norm_num [dataPoint_cons, ramp2])
    (by norm_num [setMark.loop, PlotTime, PlotElevation, mkPoint])
  refine ⟨by simp [AxisSorted, ramp2, PlotTime, mkPoint], ?_, ?_, by norm_num⟩
  · rw [h]
    norm_num [PlotTime, PlotElevation, mkPoint, abs_of_nonneg]
  · norm_num [MarkStats.mean]

/-- C9 fails on the code: on two samples at `t = 0, 1` with elevations `0, 100`,
the zero-width interval at `t = 1/4`, where the interpolated elevation is `25`,
is shown with min `0`, mean `50` and max `25`; and the zero-width interval at the
coordinate of the first sample faults, reading sample `-1`. -/
theorem setMark_zero_width :
    AxisSorted PlotTime ramp2
    ∧ (interpolateDataX DataPoint.interpolate PlotTime ramp2 (1 / 4)).map PlotElevation
      = some 25
    ∧ setMark DataPoint.interpolate PlotTime PlotTime PlotElevation ramp2 (1 / 4) (1 / 4)
      = some (MarkResult.shown
          { value := 25, change := 0, min := 0, sum := 50, dxSum := 1, max := 25 })
    ∧ MarkStats.mean { value := 25, change := 0, min := 0, sum := 50, dxSum := 1, max := 25 }
      = some 50
    ∧ setMark DataPoint.interpolate PlotTime PlotTime PlotElevation ramp2 0 0 = none := by
  have hmin : min (1 / 4 : ℚ) (1 / 4) = 1 / 4 := min_self _
  have hmax : max (1 / 4 : ℚ) (1 / 4) = 1 / 4 := max_self _
  have h := setMark_eq DataPoint.interpolate PlotTime PlotTime PlotElevation ramp2
    (1 / 4) (1 / 4) (mkPoint (1 / 4) 25) (mkPoint (1 / 4) 25) (mkPoint (1 / 4) 25)
    (mkPoint (1 / 4) 25) (mkPoint 1 100) (mkPoint 0 0) 1 0
    { sum := (100 + 25) / 2 * |1 - 1 / 4|, dxSum := |1 - 1 / 4|, min := 25, max := 25 }
    ramp2_interpolate_quarter ramp2_interpolate_quarter
    (by rw [hmin]; exact ramp2_interpolate_quarter)
    (by rw [hmax]; exact ramp2_interpolate_quarter)
    (by rw [hmin]; norm_num [findIndexAboveX, findIndexAboveX.loop, int32, dataPoint_cons,
      dataPoint_nil, ramp2, PlotTime, mkPoint, Int.tdiv_eq_ediv])
    (by rw [hmax]; norm_num [findIndexBelowX, findIndexBelowX.loop, int32, dataPoint_cons,
      dataPoint_nil, ramp2, PlotTime, mkPoint, Int.tdiv_eq_ediv])
    (by norm_num [dataPoint_cons, dataPoint_nil, ramp2])
    (by norm_num [dataPoint_cons, ramp2])
    (by norm_num [setMark.loop, PlotTime, PlotElevation, mkPoint])
  refine ⟨by simp [AxisSorted, ramp2, PlotTime, mkPoint], ?_, ?_, ?_, ?_⟩
  · rw [ramp2_interpolate_quarter]; rfl
  · rw [h]
    norm_num [PlotTime, PlotElevation, mkPoint, abs_of_nonneg]
  · norm_num [MarkStats.mean]
  · exact setMark_fault_jMax DataPoint.interpolate PlotTime PlotTime PlotElevation ramp2 0 0
      (-1)
      (by rw [max_self]; norm_num [findIndexBelowX, findIndexBelowX.loop, int32,
        dataPoint_cons, dataPoint_nil, ramp2, PlotTime, mkPoint, Int.tdiv_eq_ediv])
      (by norm_num [dataPoint_cons, dataPoint_nil, ramp2])

/-- C10: on a sequence of one sample `interpolateDataX` returns that sample for
every `x`, as the claim says; its aggregation part fails on the code: for the
single sample at `t = 0` with elevation `7` and the interval `[-1, 1]`, `setMark`
shows min `7`, max `7`, delta `0`, and the weight `dxSum` is `0`, so that the
mean `sum / dxSum` has no value; for the interval `[1, 2]` it faults, reading
sample `1`. -/
theorem single_sample_queries :
    (∀ (interp : Interp) (xv : Channel) (p : DataPoint) (x : ℚ),
      interpolateDataX interp xv [p] x = some p)
    ∧ setMark DataPoint.interpolate PlotTime PlotTime PlotElevation single1 (-1) 1
      = some (MarkResult.shown
          { value := 7, change := 0, min := 7, sum := 0, dxSum := 0, max := 7 })
    ∧ MarkStats.mean { value := 7, change := 0, min := 7, sum := 0, dxSum := 0, max := 7 }
      = none
    ∧ setMark DataPoint.interpolate PlotTime PlotTime PlotElevation single1 1 2 = none := by
  have hmin : min (-1 : ℚ) 1 = -1 := by norm_num
  have hmax : max (-1 : ℚ) 1 = 1 := by norm_num
  have hmin2 : min (1 : ℚ) 2 = 1 := by norm_num
  have hq : ∀ x, interpolateDataX DataPoint.interpolate PlotTime single1 x
      = some (mkPoint 0 7) := fun x => interpolateDataX_single _ _ _ x
  have h := setMark_eq DataPoint.interpolate PlotTime PlotTime PlotElevation single1
    (-1) 1 (mkPoint 0 7) (mkPoint 0 7) (mkPoint 0 7) (mkPoint 0 7) (mkPoint 0 7) (mkPoint 0 7)
    0 0 { sum := (7 + 7) / 2 * |0 - 0|, dxSum := |0 - 0|, min := 7, max := 7 }
    (hq _) (hq _) (hq _) (hq _)
    (by rw [hmin]; norm_num [findIndexAboveX, findIndexAboveX.loop, int32, dataPoint_cons,
      dataPoint_nil, single1, PlotTime, mkPoint, Int.tdiv_eq_ediv])
    (by rw [hmax]; norm_num [findIndexBelowX, findIndexBelowX.loop, int32, dataPoint_cons,
      dataPoint_nil, single1, PlotTime, mkPoint, Int.tdiv_eq_ediv])
    (by norm_num [dataPoint_cons, single1])
    (by norm_num [dataPoint_cons, single1])
    (by norm_num [setMark.loop, PlotTime, PlotElevation, mkPoint])
  refine ⟨interpolateDataX_single, ?_, ?_, ?_⟩
  · rw [h]
    norm_num [PlotTime, PlotElevation, mkPoint]
  · norm_num [MarkStats.mean]
  · exact setMark_fault_jMin DataPoint.interpolate PlotTime PlotTime PlotElevation single1 1 2
      1
      (by rw [hmin2]; norm_num [findIndexAboveX, findIndexAboveX.loop, int32,
        dataPoint_cons, dataPoint_nil, single1, PlotTime, mkPoint, Int.tdiv_eq_ediv])
      (by norm_num [dataPoint_cons, dataPoint_nil, single1])

theorem findIndexBelowX_probes_eq (xv : Channel) (data : List DataPoint) (x : ℚ)
    (fuel : Nat) (below above : Int) :
    findIndexBelowX.probes xv data x fuel below above
      = bisectProbes (fun dp => xv dp < x) data fuel below above := by
  induction fuel generalizing below above with
  | zero => rfl
  | succ k ih =>
    simp only [findIndexBelowX.probes, bisectProbes]
    split_ifs with h
    · cases hd : dataPoint data (Int.tdiv (int32 (below + above)) 2) with
      | none => rfl
      | some dp =>
        simp only []
        split_ifs <;> rw [ih]
    · rfl

theorem findIndexAboveX_probes_eq (xv : Channel) (data : List DataPoint) (x : ℚ)
    (fuel : Nat) (below above : Int) :
    findIndexAboveX.probes xv data x fuel below above
      = bisectProbes (fun dp => xv dp ≤ x) data fuel below above := by
  induction fuel generalizing below above with
  | zero => rfl
  | succ k ih =>
    simp only [findIndexAboveX.probes, bisectProbes]
    split_ifs with h
    · cases hd : dataPoint data (Int.tdiv (int32 (below + above)) 2) with
      | none => rfl
      | some dp =>
        simp only []
        by_cases hq : xv dp ≤ x
        · rw [if_neg (not_lt.mpr hq), if_pos hq, ih]
        · rw [if_pos (not_le.mp hq), if_neg hq, ih]
    · rfl

/-- Every index the bisection probes lies strictly between `below` and `above`,
and there are fewer probes than `above - below`. -/
theorem bisectProbes_range (q : DataPoint → Prop) [DecidablePred q] (data : List DataPoint)
    (hn : data.length < 2 ^ 30) (fuel : Nat) (below above : Int)
    (hb : -1 ≤ below) (hba : below < above) (ha : above ≤ data.length) :
    (∀ m ∈ bisectProbes q data fuel below above, below < m ∧ m < above)
    ∧ ((bisectProbes q data fuel below above).length : Int) + 1 ≤ above - below := by
  induction fuel generalizing below above with
  | zero => exact ⟨fun m hm => by simp [bisectProbes] at hm, by simp [bisectProbes]; omega⟩
  | succ k ih =>
    by_cases hexit : below + 1 = above
    · simp only [bisectProbes, ne_eq, hexit, not_true_eq_false, if_false]
      exact ⟨fun m hm => by simp at hm, by simp; omega⟩
    · obtain ⟨m, hm, hbm, hma⟩ := midpoint_facts hn hb (by omega) ha
      have hmlt : m < data.length := by omega
      have hdp : dataPoint data (m : Int) = some data[m] := dataPoint_of_lt data m hmlt
      simp only [bisectProbes, ne_eq, hexit, not_false_eq_true, if_true, hm, hdp]
      by_cases hq : q data[m]
      · rw [if_pos hq]
        obtain ⟨i1, i2⟩ := ih (m : Int) above (by omega) hma ha
        refine ⟨fun j hj => ?_, ?_⟩
        · rcases List.mem_cons.mp hj with rfl | hj
          · exact ⟨hbm, hma⟩
          · have := i1 j hj; omega
        · rw [List.length_cons]; push_cast; omega
      · rw [if_neg hq]
        obtain ⟨i1, i2⟩ := ih below (m : Int) hb hbm (by omega)
        refine ⟨fun j hj => ?_, ?_⟩
        · rcases List.mem_cons.mp hj with rfl | hj
          · exact ⟨hbm, hma⟩
          · have := i1 j hj; omega
        · rw [List.length_cons]; push_cast; omega

/-- A search that has left its loop leaves it with the same result under any
larger budget. -/
theorem bisect_fuel_succ (q : DataPoint → Prop) [DecidablePred q] (data : List DataPoint)
    (fuel : Nat) (below above : Int) (r : Int × Int)
    (h : bisect q data fuel below above = some r) :
    bisect q data (fuel + 1) below above = some r := by
  induction fuel generalizing below above with
  | zero => simp [bisect] at h
  | succ k ih =>
    rw [bisect] at h
    rw [bisect]
    split_ifs at h ⊢ with hexit
    · cases hd : dataPoint data (Int.tdiv (int32 (below + above)) 2) with
      | none => rw [hd] at h; exact Option.noConfusion h
      | some dp =>
        rw [hd] at h
        simp only [] at h ⊢
        split_ifs at h ⊢ with hq
        · exact ih _ _ h
        · exact ih _ _ h
    · exact h

theorem bisect_fuel_le (q : DataPoint → Prop) [DecidablePred q] (data : List DataPoint)
    (fuel fuel' : Nat) (hle : fuel ≤ fuel') (below above : Int) (r : Int × Int)
    (h : bisect q data fuel below above = some r) :
    bisect q data fuel' below above = some r := by
  induction fuel', hle using Nat.le_induction with
  | base => exact h
  | succ k _ ih => exact bisect_fuel_succ q data k below above r ih

/-- Both searches leave their loop, for any axis values: the results of the
common shape `bisect` from the initial pair `(-1, n)`. -/
theorem bisect_total (q : DataPoint → Prop) [DecidablePred q] (data : List DataPoint)
    (hn : data.length < 2 ^ 30) :
    ∃ r : Int, (∀ fuel, data.length + 1 ≤ fuel →
        bisect q data fuel (-1) data.length = some (r, r + 1))
      ∧ -1 ≤ r ∧ r < data.length
      ∧ (0 ≤ r → ∃ dp, dataPoint data r = some dp ∧ q dp)
      ∧ (r + 1 < data.length → ∃ dp, dataPoint data (r + 1) = some dp ∧ ¬ q dp) := by
  obtain ⟨r, hr, h1, h2, h3, h4⟩ := bisect_spec q data hn (data.length + 1) (-1) data.length
    (le_refl _) (by omega) (le_refl _) (by omega) (by omega) (by omega)
  exact ⟨r, fun fuel hf => bisect_fuel_le q data _ fuel hf _ _ _ hr, h1, h2, h3, h4⟩

/-- C15: for every sequence of fewer than `2 ^ 30` samples (so that
`below + above` stays in the 32-bit range), every axis channel, monotonic along
the sequence or not, and every `x`: both search loops leave, with the same result
under every budget of at least `n + 1` tests and after at most `n` probes; every
probed index `mid` satisfies `0 <= mid <= n - 1`; `findIndexBelowX` returns a value
in `[-1, n-1]` and `findIndexAboveX` a value in `[0, n]`. -/
theorem findIndex_loops_total (xv : Channel) (data : List DataPoint) (x : ℚ)
    (hn : data.length < 2 ^ 30) :
    (∃ r : Int, (∀ fuel, data.length + 1 ≤ fuel →
          findIndexBelowX.loop xv data x fuel (-1) data.length = some r)
        ∧ findIndexBelowX xv data x = some r ∧ -1 ≤ r ∧ r ≤ (data.length : Int) - 1)
    ∧ (∃ r : Int, (∀ fuel, data.length + 1 ≤ fuel →
          findIndexAboveX.loop xv data x fuel (-1) data.length = some r)
        ∧ findIndexAboveX xv data x = some r ∧ 0 ≤ r ∧ r ≤ (data.length : Int))
    ∧ (∀ fuel, ∀ m ∈ findIndexBelowX.probes xv data x fuel (-1) data.length,
        0 ≤ m ∧ m ≤ (data.length : Int) - 1)
    ∧ (∀ fuel, ∀ m ∈ findIndexAboveX.probes xv data x fuel (-1) data.length,
        0 ≤ m ∧ m ≤ (data.length : Int) - 1)
    ∧ (∀ fuel, (findIndexBelowX.probes xv data x fuel (-1) data.length).length ≤ data.length)
    ∧ (∀ fuel, (findIndexAboveX.probes xv data x fuel (-1) data.length).length
        ≤ data.length) := by
  obtain ⟨r1, hr1, a1, a2, -, -⟩ := bisect_total (fun dp => xv dp < x) data hn
  obtain ⟨r2, hr2, b1, b2, -, -⟩ := bisect_total (fun dp => xv dp ≤ x) data hn
  have hrange : ∀ (q : DataPoint → Prop) [DecidablePred q] (fuel : Nat),
      (∀ m ∈ bisectProbes q data fuel (-1) data.length, 0 ≤ m ∧ m ≤ (data.length : Int) - 1)
      ∧ (bisectProbes q data fuel (-1) data.length).length ≤ data.length := by
    intro q _ fuel
    obtain ⟨i1, i2⟩ := bisectProbes_range q data hn fuel (-1) data.length (le_refl _)
      (by omega) (le_refl _)
    exact ⟨fun m hm => by have := i1 m hm; omega, by omega⟩
  refine ⟨⟨r1, ?_, ?_, a1, by omega⟩, ⟨r2 + 1, ?_, ?_, by omega, by omega⟩, ?_, ?_, ?_, ?_⟩
  · intro fuel hf
    rw [findIndexBelowX_loop_eq, hr1 fuel hf]; rfl
  · rw [findIndexBelowX, findIndexBelowX_loop_eq, hr1 _ (le_refl _)]; rfl
  · intro fuel hf
    rw [findIndexAboveX_loop_eq, hr2 fuel hf]; rfl
  · rw [findIndexAboveX, findIndexAboveX_loop_eq, hr2 _ (le_refl _)]; rfl
  · intro fuel
    rw [findIndexBelowX_probes_eq]; exact (hrange _ fuel).1
  · intro fuel
    rw [findIndexAboveX_probes_eq]; exact (hrange _ fuel).1
  · intro fuel
    rw [findIndexBelowX_probes_eq]; exact (hrange _ fuel).2
  · intro fuel
    rw [findIndexAboveX_probes_eq]; exact (hrange _ fuel).2

theorem ulpExponent_of_bounds (q : ℚ) (e : ℤ) (h1 : (2 : ℚ) ^ e ≤ |q|)
    (h2 : |q| < (2 : ℚ) ^ (e + 1)) : ulpExponent q = max (e - 52) (-1074) := by
  have hpos : 0 < |q| := lt_of_lt_of_le (zpow_pos (by norm_num) e) h1
  have hlog : Int.log 2 |q| = e := by
    apply le_antisymm
    · have := (Int.lt_zpow_iff_log_lt (by norm_num : 1 < 2) hpos).1 (by exact_mod_cast h2)
      omega
    · exact (Int.zpow_le_iff_le_log (by norm_num : 1 < 2) hpos).1 (by exact_mod_cast h1)
  simp [ulpExponent, hlog]

theorem roundHalfEven_floor (q : ℚ) (m : ℤ) (h1 : (m : ℚ) ≤ q) (h2 : q < m + 1 / 2) :
    roundHalfEven q = m := by
  have hf : ⌊q⌋ = m := Int.floor_eq_iff.2 ⟨h1, by linarith⟩
  unfold roundHalfEven
  rw [hf, if_pos (by linarith)]

theorem roundHalfEven_tie_odd (q : ℚ) (m : ℤ) (h : q = m + 1 / 2) (hodd : m % 2 ≠ 0) :
    roundHalfEven q = m + 1 := by
  have hf : ⌊q⌋ = m := Int.floor_eq_iff.2 ⟨by linarith, by linarith⟩
  unfold roundHalfEven
  rw [hf, if_neg (by linarith), if_neg (by linarith), if_neg hodd]

theorem roundHalfEven_tie_even (q : ℚ) (m : ℤ) (h : q = m + 1 / 2) (heven : m % 2 = 0) :
    roundHalfEven q = m := by
  have hf : ⌊q⌋ = m := Int.floor_eq_iff.2 ⟨by linarith, by linarith⟩
  unfold roundHalfEven
  rw [hf, if_neg (by linarith), if_neg (by linarith), if_pos heven]

theorem roundDouble_of_round (q : ℚ) (e m : ℤ) (he : ulpExponent q = e)
    (hm : roundHalfEven (q / 2 ^ e) = m) (hlt : |(m : ℚ) * 2 ^ e| < 2 ^ 1024) :
    roundDouble q = some ((m : ℚ) * 2 ^ e) := by
  unfold roundDouble
  rw [he, hm, if_pos hlt]

theorem floor_le_roundHalfEven (q : ℚ) : ⌊q⌋ ≤ roundHalfEven q := by
  unfold roundHalfEven
  split_ifs <;> omega

theorem ulpExponent_ge (q : ℚ) : -1074 ≤ ulpExponent q := le_max_right _ _

/-- Every `double` is an integer multiple of the subnormal spacing. -/
theorem roundDouble_grid (a : ℚ) (ha : roundDouble a = some a) :
    ∃ k : ℤ, a = (k : ℚ) * 2 ^ (-1074 : ℤ) := by
  unfold roundDouble at ha
  split_ifs at ha
  have h := Option.some.inj ha
  have he := ulpExponent_ge a
  obtain ⟨n, hn⟩ : ∃ n : ℕ, ulpExponent a = (n : ℤ) + -1074 :=
    ⟨(ulpExponent a + 1074).toNat, by omega⟩
  refine ⟨roundHalfEven (a / 2 ^ ulpExponent a) * 2 ^ n, ?_⟩
  generalize roundHalfEven (a / 2 ^ ulpExponent a) = m at h ⊢
  rw [hn, zpow_add₀ (by norm_num : (2 : ℚ) ≠ 0), zpow_natCast] at h
  push_cast
  rw [mul_assoc]
  exact h.symm

/-- A result of at least the subnormal spacing is stored as a positive `double`. -/
theorem roundDouble_pos (q : ℚ) (hq : (2 : ℚ) ^ (-1074 : ℤ) ≤ q) (r : ℚ)
    (hr : roundDouble q = some r) : 0 < r := by
  have hpos : 0 < q := lt_of_lt_of_le (zpow_pos (by norm_num) _) hq
  have hexp : (2 : ℚ) ^ ulpExponent q ≤ q := by
    unfold ulpExponent
    rcases max_cases (Int.log 2 |q| - 52) (-1074) with ⟨h, -⟩ | ⟨h, -⟩
    · rw [h]
      have h1 : (2 : ℚ) ^ Int.log 2 |q| ≤ |q| := by
        have := Int.zpow_log_le_self (by norm_num : 1 < 2) (abs_pos.mpr (ne_of_gt hpos))
        exact_mod_cast this
      have h3 : (2 : ℚ) ^ (Int.log 2 |q| - 52) ≤ 2 ^ Int.log 2 |q| :=
        zpow_le_zpow_right₀ (by norm_num) (by omega)
      rw [abs_of_pos hpos] at h1 h3
      rw [abs_of_pos hpos]
      exact le_trans h3 h1
    · rw [h]; exact hq
  have h2 : (0 : ℚ) < 2 ^ ulpExponent q := zpow_pos (by norm_num) _
  have h1 : (1 : ℚ) ≤ q / 2 ^ ulpExponent q := (one_le_div h2).mpr hexp
  have hfl : 1 ≤ ⌊q / 2 ^ ulpExponent q⌋ := Int.le_floor.mpr (by exact_mod_cast h1)
  have hm : 1 ≤ roundHalfEven (q / 2 ^ ulpExponent q) :=
    le_trans hfl (floor_le_roundHalfEven _)
  unfold roundDouble at hr
  split_ifs at hr
  rw [← Option.some.inj hr]
  exact mul_pos (by exact_mod_cast hm) h2

/-- The difference of two distinct `double` values is never rounded to zero
(gradual underflow). -/
theorem roundDouble_sub_pos (a b : ℚ) (ha : roundDouble a = some a)
    (hb : roundDouble b = some b) (hab : a < b) (r : ℚ)
    (hr : roundDouble (b - a) = some r) : 0 < r := by
  obtain ⟨ka, hka⟩ := roundDouble_grid a ha
  obtain ⟨kb, hkb⟩ := roundDouble_grid b hb
  have h2 : (0 : ℚ) < 2 ^ (-1074 : ℤ) := zpow_pos (by norm_num) _
  have hk : ka < kb := by
    by_contra hcon
    have : (kb : ℚ) ≤ ka := by exact_mod_cast not_lt.mp hcon
    have := mul_le_mul_of_nonneg_right this (le_of_lt h2)
    rw [← hka, ← hkb] at this
    linarith
  have hk1 : (1 : ℚ) ≤ (kb : ℚ) - ka := by
    have : ka + 1 ≤ kb := hk
    have : ((ka + 1 : ℤ) : ℚ) ≤ kb := by exact_mod_cast this
    push_cast at this
    linarith
  refine roundDouble_pos (b - a) ?_ r hr
  rw [hka, hkb, ← sub_mul]
  calc (2 : ℚ) ^ (-1074 : ℤ) = 1 * 2 ^ (-1074 : ℤ) := (one_mul _).symm
    _ ≤ ((kb : ℚ) - ka) * 2 ^ (-1074 : ℤ) := mul_le_mul_of_nonneg_right hk1 (le_of_lt h2)

/-- The largest `double` below `1` is `1 - 2 ^ (-53)`. -/
theorem roundDouble_below_one : roundDouble (1 - 1 / 2 ^ 53) = some (1 - 1 / 2 ^ 53) := by
  have he : ulpExponent (1 - 1 / 2 ^ 53) = -53 := by
    rw [ulpExponent_of_bounds _ (-1) (by norm_num [abs_of_pos]) (by norm_num [abs_of_pos])]
    norm_num
  have hm : roundHalfEven ((1 - 1 / 2 ^ 53) / 2 ^ (-53 : ℤ)) = 2 ^ 53 - 1 :=
    roundHalfEven_floor _ _ (by norm_num) (by norm_num)
  rw [roundDouble_of_round _ _ _ he hm (by norm_num [abs_of_pos])]
  norm_num

/-- The difference `(1 - 2 ^ (-53)) - (-1)` lies halfway between the `double`
values `2 - 2 ^ (-52)` and `2`, and is stored as `2`. -/
theorem roundDouble_tie_two : roundDouble (1 - 1 / 2 ^ 53 - -1) = some 2 := by
  have he : ulpExponent (1 - 1 / 2 ^ 53 - -1) = -52 := by
    rw [ulpExponent_of_bounds _ 0 (by norm_num [abs_of_pos]) (by norm_num [abs_of_pos])]
    norm_num
  have hm : roundHalfEven ((1 - 1 / 2 ^ 53 - -1) / 2 ^ (-52 : ℤ)) = 2 ^ 53 - 1 + 1 :=
    roundHalfEven_tie_odd _ _ (by norm_num) (by norm_num)
  rw [roundDouble_of_round _ _ _ he hm (by norm_num [abs_of_pos])]
  norm_num

theorem roundDouble_one : roundDouble 1 = some 1 := by
  have he : ulpExponent 1 = -52 := by
    rw [ulpExponent_of_bounds _ 0 (by norm_num) (by norm_num)]
    norm_num
  have hm : roundHalfEven (1 / 2 ^ (-52 : ℤ)) = 2 ^ 52 :=
    roundHalfEven_floor _ _ (by norm_num) (by norm_num)
  rw [roundDouble_of_round _ _ _ he hm (by norm_num [abs_of_pos])]
  norm_num

theorem roundDouble_two : roundDouble 2 = some 2 := by
  have he : ulpExponent 2 = -51 := by
    rw [ulpExponent_of_bounds _ 1 (by norm_num) (by norm_num)]
    norm_num
  have hm : roundHalfEven (2 / 2 ^ (-51 : ℤ)) = 2 ^ 52 :=
    roundHalfEven_floor _ _ (by norm_num) (by norm_num)
  rw [roundDouble_of_round _ _ _ he hm (by norm_num [abs_of_pos])]
  norm_num

/-- The smallest positive `double` is `2 ^ (-1074)`. -/
theorem roundDouble_tiny : roundDouble (1 / 2 ^ 1074) = some (1 / 2 ^ 1074) := by
  have he : ulpExponent (1 / 2 ^ 1074) = -1074 := by
    rw [ulpExponent_of_bounds _ (-1074) (by norm_num [abs_of_pos]) (by norm_num [abs_of_pos])]
    norm_num
  have hm : roundHalfEven (1 / 2 ^ 1074 / 2 ^ (-1074 : ℤ)) = 1 :=
    roundHalfEven_floor _ _ (by norm_num) (by norm_num)
  rw [roundDouble_of_round _ _ _ he hm (by norm_num [abs_of_pos])]
  norm_num

/-- The quotient `2 ^ (-1074) / 2` lies halfway between `0` and the smallest
positive `double`, and is stored as `0`. -/
theorem roundDouble_half_tiny : roundDouble (1 / 2 ^ 1074 / 2) = some 0 := by
  have he : ulpExponent (1 / 2 ^ 1074 / 2) = -1074 := by
    rw [ulpExponent_of_bounds _ (-1075) (by norm_num [abs_of_pos]) (by norm_num [abs_of_pos])]
    norm_num
  have hm : roundHalfEven (1 / 2 ^ 1074 / 2 / 2 ^ (-1074 : ℤ)) = 0 :=
    roundHalfEven_tie_even _ _ (by norm_num) (by norm_num)
  rw [roundDouble_of_round _ _ _ he hm (by norm_num [abs_of_pos])]
  norm_num

theorem fractionDouble_of_rounds (x x1 x2 a b r : ℚ) (ha : roundDouble (x - x1) = some a)
    (hb : roundDouble (x2 - x1) = some b) (hb0 : b ≠ 0) (hr : roundDouble (a / b) = some r) :
    fractionDouble x x1 x2 = some r := by
  unfold fractionDouble
  rw [ha, hb]
  show (if b = 0 then none else roundDouble (a / b)) = some r
  rw [if_neg hb0, hr]

theorem pair2_searches :
    findIndexBelowX PlotTime pair2 (1 - 1 / 2 ^ 53) = some 0
    ∧ findIndexAboveX PlotTime pair2 (1 - 1 / 2 ^ 53) = some 1 := by
  constructor
  · norm_num [findIndexBelowX, findIndexBelowX.loop, int32, dataPoint_cons, dataPoint_nil,
      pair2, PlotTime, mkPoint, Int.tdiv_eq_ediv]
  · norm_num [findIndexAboveX, findIndexAboveX.loop, int32, dataPoint_cons, dataPoint_nil,
      pair2, PlotTime, mkPoint, Int.tdiv_eq_ediv]

theorem wide2_searches :
    findIndexBelowX PlotTime wide2 (1 / 2 ^ 1074) = some 0
    ∧ findIndexAboveX PlotTime wide2 (1 / 2 ^ 1074) = some 1 := by
  constructor
  · norm_num [findIndexBelowX, findIndexBelowX.loop, int32, dataPoint_cons, dataPoint_nil,
      wide2, PlotTime, mkPoint, Int.tdiv_eq_ediv]
  · norm_num [findIndexAboveX, findIndexAboveX.loop, int32, dataPoint_cons, dataPoint_nil,
      wide2, PlotTime, mkPoint, Int.tdiv_eq_ediv]

theorem fractionDouble_pair2 : fractionDouble (1 - 1 / 2 ^ 53) (-1) 1 = some 1 :=
  fractionDouble_of_rounds _ _ _ 2 2 1 roundDouble_tie_two
    (by rw [show (1 : ℚ) - -1 = 2 by norm_num]; exact roundDouble_two) (by norm_num)
    (by rw [show (2 : ℚ) / 2 = 1 by norm_num]; exact roundDouble_one)

theorem fractionDouble_wide2 : fractionDouble (1 / 2 ^ 1074) 0 2 = some 0 :=
  fractionDouble_of_rounds _ _ _ (1 / 2 ^ 1074) 2 0
    (by rw [sub_zero]; exact roundDouble_tiny)
    (by rw [sub_zero]; exact roundDouble_two) (by norm_num) roundDouble_half_tiny

/-- C14, as stated, fails for the fraction the program computes. Between two
samples at the times `-1` and `1`, the coordinate `x = 1 - 2 ^ (-53)`, the largest
`double` below `1`, reaches the interpolation branch (`i1 = 0`, `i2 = 1 < 2`) with
`x1 < x < x2`; the difference `x - x1` is stored as `2`, and the fraction
`(x - x1) / (x2 - x1)` is exactly `1`. Between two samples at the times `0` and
`2`, the coordinate `x = 2 ^ (-1074)`, the smallest positive `double`, gives the
fraction exactly `0`. -/
theorem interpolateDataX_fraction_not_strict :
    (findIndexBelowX PlotTime pair2 (1 - 1 / 2 ^ 53) = some 0
      ∧ findIndexAboveX PlotTime pair2 (1 - 1 / 2 ^ 53) = some 1
      ∧ (1 : Int) < pair2.length
      ∧ dataPoint pair2 0 = some (mkPoint (-1) 0)
      ∧ dataPoint pair2 1 = some (mkPoint 1 0)
      ∧ roundDouble (1 - 1 / 2 ^ 53) = some (1 - 1 / 2 ^ 53)
      ∧ PlotTime (mkPoint (-1) 0) < 1 - 1 / 2 ^ 53
      ∧ 1 - 1 / 2 ^ 53 < PlotTime (mkPoint 1 0)
      ∧ fractionDouble (1 - 1 / 2 ^ 53) (PlotTime (mkPoint (-1) 0)) (PlotTime (mkPoint 1 0))
          = some 1)
    ∧ (findIndexBelowX PlotTime wide2 (1 / 2 ^ 1074) = some 0
      ∧ findIndexAboveX PlotTime wide2 (1 / 2 ^ 1074) = some 1
      ∧ (1 : Int) < wide2.length
      ∧ dataPoint wide2 0 = some (mkPoint 0 0)
      ∧ dataPoint wide2 1 = some (mkPoint 2 0)
      ∧ roundDouble (1 / 2 ^ 1074) = some (1 / 2 ^ 1074)
      ∧ PlotTime (mkPoint 0 0) < 1 / 2 ^ 1074
      ∧ 1 / 2 ^ 1074 < PlotTime (mkPoint 2 0)
      ∧ fractionDouble (1 / 2 ^ 1074) (PlotTime (mkPoint 0 0)) (PlotTime (mkPoint 2 0))
          = some 0) :=
  ⟨⟨pair2_searches.1, pair2_searches.2, by decide, rfl, rfl, roundDouble_below_one,
      show (-1 : ℚ) < 1 - 1 / 2 ^ 53 by norm_num, show (1 - 1 / 2 ^ 53 : ℚ) < 1 by norm_num,
      fractionDouble_pair2⟩,
    ⟨wide2_searches.1, wide2_searches.2, by decide, rfl, rfl, roundDouble_tiny,
      show (0 : ℚ) < 1 / 2 ^ 1074 by norm_num, show (1 / 2 ^ 1074 : ℚ) < 2 by norm_num,
      fractionDouble_wide2⟩⟩

theorem roundHalfEven_le_floor_succ (q : ℚ) : roundHalfEven q ≤ ⌊q⌋ + 1 := by
  unfold roundHalfEven
  split_ifs <;> omega

theorem roundHalfEven_mono (p q : ℚ) (h : p ≤ q) : roundHalfEven p ≤ roundHalfEven q := by
  rcases lt_or_eq_of_le (Int.floor_mono h) with hlt | heq
  · exact le_trans (roundHalfEven_le_floor_succ p) (le_trans hlt (floor_le_roundHalfEven q))
  · unfold roundHalfEven
    rw [heq]
    split_ifs <;> first | omega | (exfalso; linarith)

theorem roundHalfEven_intCast (n : ℤ) : roundHalfEven (n : ℚ) = n := by
  unfold roundHalfEven
  rw [Int.floor_intCast, if_pos (by norm_num)]

theorem roundDouble_eq_some (q r : ℚ) (h : roundDouble q = some r) :
    r = (roundHalfEven (q / 2 ^ ulpExponent q) : ℚ) * 2 ^ ulpExponent q := by
  unfold roundDouble at h
  split_ifs at h
  exact (Option.some.inj h).symm

theorem roundDouble_nonneg (q r : ℚ) (hq : 0 ≤ q) (h : roundDouble q = some r) : 0 ≤ r := by
  rw [roundDouble_eq_some q r h]
  have h2 : (0 : ℚ) < 2 ^ ulpExponent q := zpow_pos (by norm_num) _
  have hm : roundHalfEven 0 ≤ roundHalfEven (q / 2 ^ ulpExponent q) :=
    roundHalfEven_mono _ _ (div_nonneg hq (le_of_lt h2))
  have h0 : roundHalfEven 0 = 0 := by simpa using roundHalfEven_intCast 0
  rw [h0] at hm
  exact mul_nonneg (by exact_mod_cast hm) (le_of_lt h2)

theorem ulpExponent_mono (p q : ℚ) (hp : 0 < p) (h : p ≤ q) : ulpExponent p ≤ ulpExponent q := by
  unfold ulpExponent
  have hq : 0 < q := lt_of_lt_of_le hp h
  rw [abs_of_pos hp, abs_of_pos hq]
  have := Int.log_mono_right (b := 2) hp h
  exact max_le_max (by omega) (le_refl _)

/-- Rounding to a `double` is monotone on the non-negative results. -/
theorem roundDouble_mono (p q r s : ℚ) (hp : 0 ≤ p) (h : p ≤ q)
    (hr : roundDouble p = some r) (hs : roundDouble q = some s) : r ≤ s := by
  rcases eq_or_lt_of_le hp with h0 | hpos
  · subst h0
    have e := roundDouble_eq_some 0 r hr
    have h0 : roundHalfEven 0 = 0 := by simpa using roundHalfEven_intCast 0
    rw [zero_div, h0] at e
    rw [e]
    simpa using roundDouble_nonneg q s (le_trans hp h) hs
  have hq : 0 < q := lt_of_lt_of_le hpos h
  rw [roundDouble_eq_some p r hr, roundDouble_eq_some q s hs]
  have h2p : (0 : ℚ) < 2 ^ ulpExponent p := zpow_pos (by norm_num) _
  have h2q : (0 : ℚ) < 2 ^ ulpExponent q := zpow_pos (by norm_num) _
  rcases eq_or_lt_of_le (ulpExponent_mono p q hpos h) with he | he
  · rw [he]
    have hm : roundHalfEven (p / 2 ^ ulpExponent q) ≤ roundHalfEven (q / 2 ^ ulpExponent q) :=
      roundHalfEven_mono _ _ (div_le_div_of_nonneg_right h (le_of_lt h2q))
    exact mul_le_mul_of_nonneg_right (by exact_mod_cast hm) (le_of_lt h2q)
  · -- the spacing grows between `p` and `q`: a power of two lies between them
    have hLq : ulpExponent q = Int.log 2 |q| - 52 := by
      have h1 := ulpExponent_ge p
      unfold ulpExponent at he ⊢
      rcases max_cases (Int.log 2 |q| - 52) (-1074) with ⟨hm, -⟩ | ⟨hm, -⟩
      · exact hm
      · rw [hm] at he
        have := le_max_right (Int.log 2 |p| - 52) (-1074)
        omega
    have hLp : Int.log 2 |p| - 52 ≤ ulpExponent p := le_max_left _ _
    have hpow_q : (2 : ℚ) ^ Int.log 2 |q| ≤ q := by
      have := Int.zpow_log_le_self (by norm_num : 1 < 2) (abs_pos.mpr (ne_of_gt hq))
      rw [abs_of_pos hq] at this ⊢
      exact_mod_cast this
    have hpow_p : p < (2 : ℚ) ^ (Int.log 2 |p| + 1) := by
      have := Int.lt_zpow_succ_log_self (by norm_num : 1 < 2) |p|
      rw [abs_of_pos hpos] at this ⊢
      exact_mod_cast this
    -- the power of two `2 ^ L`, `L = log q`, as a multiple of either spacing
    obtain ⟨n, hn⟩ : ∃ n : ℕ, Int.log 2 |q| = ulpExponent p + (n : ℤ) :=
      ⟨(Int.log 2 |q| - ulpExponent p).toNat, by omega⟩
    have hLpq : Int.log 2 |p| + 1 ≤ Int.log 2 |q| := by omega
    have hp_le : p ≤ (2 : ℚ) ^ Int.log 2 |q| :=
      le_trans (le_of_lt hpow_p) (zpow_le_zpow_right₀ (by norm_num) hLpq)
    have e1 : (2 : ℚ) ^ Int.log 2 |q| = ((2 ^ n : ℤ) : ℚ) * 2 ^ ulpExponent p := by
      rw [hn, zpow_add₀ (by norm_num : (2 : ℚ) ≠ 0), zpow_natCast]
      push_cast
      ring
    have e2 : (2 : ℚ) ^ Int.log 2 |q| = ((2 ^ 52 : ℤ) : ℚ) * 2 ^ ulpExponent q := by
      have : Int.log 2 |q| = ulpExponent q + ((52 : ℕ) : ℤ) := by rw [hLq]; norm_num
      rw [this, zpow_add₀ (by norm_num : (2 : ℚ) ≠ 0), zpow_natCast]
      push_cast
      ring
    have m1 : roundHalfEven (p / 2 ^ ulpExponent p) ≤ 2 ^ n := by
      have := roundHalfEven_mono (p / 2 ^ ulpExponent p) ((2 ^ n : ℤ) : ℚ)
        ((div_le_iff₀ h2p).mpr (by rw [← e1]; exact hp_le))
      rwa [roundHalfEven_intCast] at this
    have m2 : (2 : ℤ) ^ 52 ≤ roundHalfEven (q / 2 ^ ulpExponent q) := by
      have := roundHalfEven_mono ((2 ^ 52 : ℤ) : ℚ) (q / 2 ^ ulpExponent q)
        ((le_div_iff₀ h2q).mpr (by rw [← e2]; exact hpow_q))
      rwa [roundHalfEven_intCast] at this
    calc (roundHalfEven (p / 2 ^ ulpExponent p) : ℚ) * 2 ^ ulpExponent p
        ≤ ((2 ^ n : ℤ) : ℚ) * 2 ^ ulpExponent p :=
          mul_le_mul_of_nonneg_right (by exact_mod_cast m1) (le_of_lt h2p)
      _ = ((2 ^ 52 : ℤ) : ℚ) * 2 ^ ulpExponent q := by rw [← e1, e2]
      _ ≤ (roundHalfEven (q / 2 ^ ulpExponent q) : ℚ) * 2 ^ ulpExponent q :=
          mul_le_mul_of_nonneg_right (by exact_mod_cast m2) (le_of_lt h2q)

/-- The fraction of `interpolateDataX` as the program computes it, for
`x1 < x < x2`: whenever it has a value it lies in the closed interval from `0`
to `1`. -/
theorem fractionDouble_bounds (x x1 x2 f : ℚ) (h1 : x1 < x) (h2 : x < x2)
    (hf : fractionDouble x x1 x2 = some f) : 0 ≤ f ∧ f ≤ 1 := by
  unfold fractionDouble at hf
  cases ha : roundDouble (x - x1) with
  | none => rw [ha] at hf; exact Option.noConfusion hf
  | some a =>
    cases hb : roundDouble (x2 - x1) with
    | none => rw [ha, hb] at hf; exact Option.noConfusion hf
    | some b =>
      rw [ha, hb] at hf
      change (if b = 0 then none else roundDouble (a / b)) = some f at hf
      by_cases hb0 : b = 0
      · rw [if_pos hb0] at hf; exact Option.noConfusion hf
      · rw [if_neg hb0] at hf
        have ha0 : 0 ≤ a := roundDouble_nonneg _ a (by linarith) ha
        have hab : a ≤ b := roundDouble_mono _ _ a b (by linarith) (by linarith) ha hb
        have hbpos : 0 < b := lt_of_le_of_ne (le_trans ha0 hab) (Ne.symm hb0)
        have hq0 : 0 ≤ a / b := div_nonneg ha0 (le_of_lt hbpos)
        have hq1 : a / b ≤ 1 := (div_le_one hbpos).mpr hab
        exact ⟨roundDouble_nonneg _ f hq0 hf,
          roundDouble_mono _ _ f 1 hq0 hq1 hf roundDouble_one⟩

/-- C14, amended: for every sequence, sorted or not and with or without duplicate
coordinates, and every `x`: whenever `interpolateDataX` reaches its interpolation
branch (`i1 >= 0` and `i2 < n`), the bracketing coordinates satisfy `x1 < x < x2`,
the divisor `x2 - x1` is positive, also as the program stores it when `x1` and
`x2` are `double` values, the fraction as the program computes it lies in the
closed interval from `0` to `1`, and a sample is returned: the branch never
divides by zero. -/
theorem interpolateDataX_divisor_pos (interp : Interp) (xv : Channel) (data : List DataPoint)
    (x : ℚ) (hn : data.length < 2 ^ 30) :
    ∃ i1 i2 : Int, findIndexBelowX xv data x = some i1 ∧ findIndexAboveX xv data x = some i2
      ∧ (0 ≤ i1 → i2 < data.length →
        ∃ dp1 dp2, dataPoint data i1 = some dp1 ∧ dataPoint data i2 = some dp2
          ∧ xv dp1 < x ∧ x < xv dp2 ∧ 0 < xv dp2 - xv dp1
          ∧ (roundDouble (xv dp1) = some (xv dp1) → roundDouble (xv dp2) = some (xv dp2) →
              ∀ d, roundDouble (xv dp2 - xv dp1) = some d → 0 < d)
          ∧ (∀ f, fractionDouble x (xv dp1) (xv dp2) = some f → 0 ≤ f ∧ f ≤ 1)
          ∧ ∃ dp, interpolateDataX interp xv data x = some dp) := by
  obtain ⟨r1, hr1, -, -, c1, -⟩ := bisect_total (fun dp => xv dp < x) data hn
  obtain ⟨r2, hr2, -, -, -, c2⟩ := bisect_total (fun dp => xv dp ≤ x) data hn
  have h1 : findIndexBelowX xv data x = some r1 := by
    rw [findIndexBelowX, findIndexBelowX_loop_eq, hr1 _ (le_refl _)]; rfl
  have h2 : findIndexAboveX xv data x = some (r2 + 1) := by
    rw [findIndexAboveX, findIndexAboveX_loop_eq, hr2 _ (le_refl _)]; rfl
  refine ⟨r1, r2 + 1, h1, h2, ?_⟩
  intro h0 hlt
  obtain ⟨dp1, hd1, hq1⟩ := c1 h0
  obtain ⟨dp2, hd2, hq2⟩ := c2 hlt
  have hx2 : x < xv dp2 := not_le.mp hq2
  have hpos : 0 < xv dp2 - xv dp1 := by linarith
  obtain ⟨b, hb, rfl, rfl⟩ := dataPoint_eq_some_iff.mp hd1
  obtain ⟨a, ha, ha', rfl⟩ := dataPoint_eq_some_iff.mp hd2
  rw [ha'] at h2
  refine ⟨data[b], data[a], hd1, hd2, hq1, hx2, hpos,
    fun g1 g2 d hd => roundDouble_sub_pos _ _ g1 g2 (by linarith) d hd,
    fun f hf => fractionDouble_bounds x _ _ f hq1 hx2 hf,
    ⟨_, interpolateDataX_between interp xv data x b a hb ha h1 h2 (ne_of_gt hpos)⟩⟩

/-- Witness of the amended C14 on four samples with the duplicate times
`0, 1, 1, 2`, at the duplicated coordinate `x = 1`. -/
theorem interpolateDataX_divisor_pos_witness :
    dup4.length < 2 ^ 30
    ∧ ∃ i1 i2 : Int, findIndexBelowX PlotTime dup4 1 = some i1
      ∧ findIndexAboveX PlotTime dup4 1 = some i2
      ∧ (0 ≤ i1 → i2 < dup4.length →
        ∃ dp1 dp2, dataPoint dup4 i1 = some dp1 ∧ dataPoint dup4 i2 = some dp2
          ∧ PlotTime dp1 < 1 ∧ 1 < PlotTime dp2 ∧ 0 < PlotTime dp2 - PlotTime dp1
          ∧ (roundDouble (PlotTime dp1) = some (PlotTime dp1) →
              roundDouble (PlotTime dp2) = some (PlotTime dp2) →
              ∀ d, roundDouble (PlotTime dp2 - PlotTime dp1) = some d → 0 < d)
          ∧ (∀ f, fractionDouble 1 (PlotTime dp1) (PlotTime dp2) = some f → 0 ≤ f ∧ f ≤ 1)
          ∧ ∃ dp, interpolateDataX DataPoint.interpolate PlotTime dup4 1 = some dp) :=
  ⟨by decide, interpolateDataX_divisor_pos DataPoint.interpolate PlotTime dup4 1 (by decide)⟩

theorem dup4_searches :
    findIndexBelowX PlotTime dup4 1 = some 0 ∧ findIndexAboveX PlotTime dup4 1 = some 3 := by
  constructor
  · norm_num [findIndexBelowX, findIndexBelowX.loop, int32, dataPoint_cons, dataPoint_nil,
      dup4, PlotTime, mkPoint, Int.tdiv_eq_ediv]
  · norm_num [findIndexAboveX, findIndexAboveX.loop, int32, dataPoint_cons, dataPoint_nil,
      dup4, PlotTime, mkPoint, Int.tdiv_eq_ediv]

/-- Witness of C15 on four samples whose times `2, 0, 1, 1` are not monotonic,
with `x = 1`. -/
theorem findIndex_loops_total_witness :
    shuffled4.length < 2 ^ 30
    ∧ (∃ r : Int, (∀ fuel, shuffled4.length + 1 ≤ fuel →
          findIndexBelowX.loop PlotTime shuffled4 1 fuel (-1) shuffled4.length = some r)
        ∧ findIndexBelowX PlotTime shuffled4 1 = some r ∧ -1 ≤ r
        ∧ r ≤ (shuffled4.length : Int) - 1)
    ∧ (∃ r : Int, (∀ fuel, shuffled4.length + 1 ≤ fuel →
          findIndexAboveX.loop PlotTime shuffled4 1 fuel (-1) shuffled4.length = some r)
        ∧ findIndexAboveX PlotTime shuffled4 1 = some r ∧ 0 ≤ r
        ∧ r ≤ (shuffled4.length : Int))
    ∧ (∀ fuel, ∀ m ∈ findIndexBelowX.probes PlotTime shuffled4 1 fuel (-1) shuffled4.length,
        0 ≤ m ∧ m ≤ (shuffled4.length : Int) - 1)
    ∧ (∀ fuel, ∀ m ∈ findIndexAboveX.probes PlotTime shuffled4 1 fuel (-1) shuffled4.length,
        0 ≤ m ∧ m ≤ (shuffled4.length : Int) - 1)
    ∧ (∀ fuel, (findIndexBelowX.probes PlotTime shuffled4 1 fuel (-1) shuffled4.length).length
        ≤ shuffled4.length)
    ∧ (∀ fuel, (findIndexAboveX.probes PlotTime shuffled4 1 fuel (-1) shuffled4.length).length
        ≤ shuffled4.length) :=
  ⟨by decide, findIndex_loops_total PlotTime shuffled4 1 (by decide)⟩

theorem shuffled4_probes :
    findIndexBelowX.probes PlotTime shuffled4 1 5 (-1) 4 = [1, 2]
    ∧ findIndexBelowX PlotTime shuffled4 1 = some 1
    ∧ findIndexAboveX.probes PlotTime shuffled4 1 5 (-1) 4 = [1, 2, 3]
    ∧ findIndexAboveX PlotTime shuffled4 1 = some 4 := by
  refine ⟨?_, ?_, ?_, ?_⟩
  · norm_num [findIndexBelowX.probes, int32, dataPoint_cons, dataPoint_nil,
      shuffled4, PlotTime, mkPoint, Int.tdiv_eq_ediv]
  · norm_num [findIndexBelowX, findIndexBelowX.loop, int32, dataPoint_cons, dataPoint_nil,
      shuffled4, PlotTime, mkPoint, Int.tdiv_eq_ediv]
  · norm_num [findIndexAboveX.probes, int32, dataPoint_cons, dataPoint_nil,
      shuffled4, PlotTime, mkPoint, Int.tdiv_eq_ediv]
  · norm_num [findIndexAboveX, findIndexAboveX.loop, int32, dataPoint_cons, dataPoint_nil,
      shuffled4, PlotTime, mkPoint, Int.tdiv_eq_ediv]

/-- On a non-empty sequence `interpolateDataX` returns a sample for every `x`,
whatever the order of the axis values. -/
theorem interpolateDataX_some_of_ne_nil (interp : Interp) (xv : Channel)
    (data : List DataPoint) (x : ℚ) (hn : data.length < 2 ^ 30) (hne : data ≠ []) :
    ∃ dp, interpolateDataX interp xv data x = some dp := by
  have hpos : 0 < data.length := List.length_pos.mpr hne
  obtain ⟨r1, hr1, a1, a2, c1, -⟩ := bisect_total (fun dp => xv dp < x) data hn
  obtain ⟨r2, hr2, b1, b2, -, c2⟩ := bisect_total (fun dp => xv dp ≤ x) data hn
  have h1 : findIndexBelowX xv data x = some r1 := by
    rw [findIndexBelowX, findIndexBelowX_loop_eq, hr1 _ (le_refl _)]; rfl
  have h2 : findIndexAboveX xv data x = some (r2 + 1) := by
    rw [findIndexAboveX, findIndexAboveX_loop_eq, hr2 _ (le_refl _)]; rfl
  by_cases hneg : r1 < 0
  · have : r1 = -1 := by omega
    rw [this] at h1
    exact ⟨data[0], by
      rw [interpolateDataX_first interp xv data x _ h1 h2, List.getElem?_eq_getElem hpos]⟩
  · by_cases hlast : r2 + 1 < (data.length : Int)
    · obtain ⟨dp1, hd1, hq1⟩ := c1 (by omega)
      obtain ⟨dp2, hd2, hq2⟩ := c2 hlast
      have hx2 : x < xv dp2 := not_le.mp hq2
      obtain ⟨b, hb, rfl, rfl⟩ := dataPoint_eq_some_iff.mp hd1
      obtain ⟨a, ha, ha', rfl⟩ := dataPoint_eq_some_iff.mp hd2
      rw [ha'] at h2
      exact ⟨_, interpolateDataX_between interp xv data x b a hb ha h1 h2
        (by intro h; linarith)⟩
    · have e2 : r2 + 1 = (data.length : Int) := by omega
      have e1 : r1 = ((r1.toNat : Nat) : Int) := by omega
      rw [e2] at h2
      rw [e1] at h1
      exact ⟨data[data.length - 1], by
        rw [interpolateDataX_last interp xv data x _ h1 h2,
          List.getElem?_eq_getElem (by omega)]⟩

/-- The loop of `setMark` reads only samples when it ends at or before the last
index. -/
theorem setMark_loop_some (tv yv : Channel) (data : List DataPoint) (count j : Nat)
    (hj : j + count < data.length) (acc : MarkAcc) :
    ∃ acc', setMark.loop tv yv data count (j : Int) acc = some acc' := by
  induction count generalizing j acc with
  | zero => exact ⟨acc, rfl⟩
  | succ c ih =>
    have hd0 : dataPoint data (j : Int) = some data[j] := dataPoint_of_lt data j (by omega)
    have hd1 : dataPoint data ((j : Int) + 1) = some data[j + 1] := by
      simpa using dataPoint_of_lt data (j + 1) (by omega)
    obtain ⟨acc', hacc⟩ := ih (j + 1) (by omega)
      { sum := acc.sum + (yv data[j + 1] + yv data[j]) / 2 * |tv data[j + 1] - tv data[j]|
        dxSum := acc.dxSum + |tv data[j + 1] - tv data[j]|
        min := min acc.min (yv data[j])
        max := max acc.max (yv data[j]) }
    refine ⟨acc', ?_⟩
    simp only [setMark.loop, hd0, hd1]
    have : ((j : Int) + 1) = ((j + 1 : Nat) : Int) := by simp
    rw [this]; exact hacc

/-- `setMark` shows a row whenever a sample lies strictly above the lower end of
the interval and a sample lies strictly below its upper end. -/
theorem setMark_shown_of_inner (interp : Interp) (xv tv yv : Channel) (data : List DataPoint)
    (start end_ : ℚ) (hn : data.length < 2 ^ 30) (hs : AxisSorted xv data)
    (hlo : ∃ p ∈ data, min start end_ < xv p) (hhi : ∃ p ∈ data, xv p < max start end_) :
    ∃ row, setMark interp xv tv yv data start end_ = some (MarkResult.shown row) := by
  have hne : data ≠ [] := by
    obtain ⟨p, hp, -⟩ := hlo
    exact List.ne_nil_of_mem hp
  obtain ⟨dpS, hS⟩ := interpolateDataX_some_of_ne_nil interp xv data start hn hne
  obtain ⟨dpE, hE⟩ := interpolateDataX_some_of_ne_nil interp xv data end_ hn hne
  obtain ⟨dpL, hL⟩ := interpolateDataX_some_of_ne_nil interp xv data (min start end_) hn hne
  obtain ⟨dpH, hH⟩ := interpolateDataX_some_of_ne_nil interp xv data (max start end_) hn hne
  obtain ⟨jm, hjm, hfm, -⟩ := findIndexAboveX_some xv data _ hn hs (mem_iff_getElem_nat.mp hlo)
  obtain ⟨jM, hjM, hfM, -⟩ := findIndexBelowX_some xv data _ hn hs (mem_iff_getElem_nat.mp hhi)
  have hcount : jm + ((jM : Int) - (jm : Int)).toNat < data.length := by omega
  obtain ⟨acc, hacc⟩ := setMark_loop_some tv yv data ((jM : Int) - (jm : Int)).toNat jm hcount
    { sum := (yv data[jm] + yv dpL) / 2 * |tv data[jm] - tv dpL|
      dxSum := |tv data[jm] - tv dpL|, min := yv dpL, max := yv dpL }
  exact ⟨_, setMark_eq interp xv tv yv data start end_ dpS dpE dpL dpH data[jm] data[jM] jm jM
    acc hS hE hL hH hfm hfM (dataPoint_of_lt data jm hjm) (dataPoint_of_lt data jM hjM) hacc⟩

/-- `setMark` faults on every interval that lies at or beyond the last sample's
coordinate and on every interval that lies at or before the first sample's. -/
theorem setMark_fault_of_outer (interp : Interp) (xv tv yv : Channel) (data : List DataPoint)
    (start end_ : ℚ) (hn : data.length < 2 ^ 30) (hs : AxisSorted xv data) :
    ((∀ p ∈ data, xv p ≤ min start end_) →
      findIndexAboveX xv data (min start end_) = some (data.length : Int)
      ∧ setMark interp xv tv yv data start end_ = none)
    ∧ ((∀ p ∈ data, max start end_ ≤ xv p) →
      findIndexBelowX xv data (max start end_) = some (-1)
      ∧ setMark interp xv tv yv data start end_ = none) := by
  constructor
  · intro hall
    have h5 := findIndexAboveX_none xv data (min start end_) hn hs
      (fun i hi h => absurd (hall data[i] (List.getElem_mem hi)) (not_le.mpr h))
    refine ⟨h5, setMark_fault_jMin interp xv tv yv data start end_ _ h5 ?_⟩
    rw [dataPoint_natCast]
    exact List.getElem?_eq_none (le_refl _)
  · intro hall
    have h6 := findIndexBelowX_none xv data (max start end_) hn hs
      (fun i hi h => absurd (hall data[i] (List.getElem_mem hi)) (not_le.mpr h))
    exact ⟨h6, setMark_fault_jMax interp xv tv yv data start end_ _ h6 (by simp [dataPoint])⟩

theorem setRange_nil (interp : Interp) (xv : Channel) (lower upper : ℚ) :
    setRange interp xv [] lower upper = none := by
  rw [setRange, interpolateDataX_nil, interpolateDataX_nil]

theorem setXAxisType_nil (interp : Interp) (xvOld xvNew : Channel)
    (lower upper tCursor tBegin : ℚ) :
    setXAxisType interp xvOld xvNew [] lower upper tCursor tBegin = none := by
  rw [setXAxisType, interpolateDataX_nil, interpolateDataX_nil, interpolateDataX_nil,
    interpolateDataX_nil]

theorem setMark_nil (interp : Interp) (xv tv yv : Channel) (start end_ : ℚ) :
    setMark interp xv tv yv [] start end_ = none := by
  rw [setMark, interpolateDataX_nil]; rfl

/-- C12 fails on the code: on the empty sequence `findIndexBelowX` returns `-1`,
so `interpolateDataX(x)` reads `dataPoint(0)`, which is no sample: it faults for
every `x`, and so do `setMark(start, end)`, `setRange` and `setXAxisType`, which
call it before any test of `dataSize()`. The sibling paths `setMark(mark)` and
`updateRange` test `dataSize() == 0` first and return without a read. -/
theorem empty_sequence_queries :
    (∀ (xv : Channel) (x : ℚ), findIndexBelowX xv [] x = some (-1))
    ∧ dataPoint [] 0 = none
    ∧ (∀ (interp : Interp) (xv : Channel) (x : ℚ), interpolateDataX interp xv [] x = none)
    ∧ (∀ (interp : Interp) (xv tv yv : Channel) (start end_ : ℚ),
        setMark interp xv tv yv [] start end_ = none)
    ∧ (∀ (interp : Interp) (xv : Channel) (lower upper : ℚ),
        setRange interp xv [] lower upper = none)
    ∧ (∀ (interp : Interp) (xvOld xvNew : Channel) (lower upper tCursor tBegin : ℚ),
        setXAxisType interp xvOld xvNew [] lower upper tCursor tBegin = none)
    ∧ (∀ (interp : Interp) (xv yv : Channel) (mark : ℚ),
        setMarkPoint interp xv yv [] mark = some none)
    ∧ (∀ (interp : Interp) (xv : Channel) (rangeLower rangeUpper : ℚ),
        updateRange interp xv [] rangeLower rangeUpper = some none) :=
  ⟨findIndexBelowX_nil, dataPoint_nil 0, interpolateDataX_nil, setMark_nil, setRange_nil,
    setXAxisType_nil, fun _ _ _ _ => rfl, fun _ _ _ _ => rfl⟩

/-- C13 fails on the code: on samples at `t = 0, 1, 2` the interval `[2, 3]`, at
and beyond the last coordinate, gives `jMin = findIndexAboveX(2) = 3 = n`, and the
interval `[-1, 0]`, at and before the first coordinate, gives
`jMax = findIndexBelowX(0) = -1`; `setMark` reads `dataPoint(3)`, respectively
`dataPoint(-1)`, and faults. -/
theorem setMark_reads_out_of_range :
    AxisSorted PlotTime track3
    ∧ findIndexAboveX PlotTime track3 (min 2 3) = some 3
    ∧ (3 : Int) = track3.length
    ∧ dataPoint track3 3 = none
    ∧ setMark DataPoint.interpolate PlotTime PlotTime PlotElevation track3 2 3 = none
    ∧ findIndexBelowX PlotTime track3 (max (-1) 0) = some (-1)
    ∧ dataPoint track3 (-1) = none
    ∧ setMark DataPoint.interpolate PlotTime PlotTime PlotElevation track3 (-1) 0 = none := by
  have hmin : min (2 : ℚ) 3 = 2 := by norm_num
  have hmax : max (-1 : ℚ) 0 = 0 := by norm_num
  have h5 : findIndexAboveX PlotTime track3 (min 2 3) = some 3 := by
    rw [hmin]
    norm_num [findIndexAboveX, findIndexAboveX.loop, int32, dataPoint_cons, dataPoint_nil,
      track3, PlotTime, mkPoint, Int.tdiv_eq_ediv]
  have h7 : dataPoint track3 3 = none := by
    norm_num [dataPoint_cons, dataPoint_nil, track3]
  have h6 : findIndexBelowX PlotTime track3 (max (-1) 0) = some (-1) := by
    rw [hmax]
    norm_num [findIndexBelowX, findIndexBelowX.loop, int32, dataPoint_cons, dataPoint_nil,
      track3, PlotTime, mkPoint, Int.tdiv_eq_ediv]
  have h8 : dataPoint track3 (-1) = none := by
    norm_num [dataPoint_cons, dataPoint_nil, track3]
  exact ⟨track3_sorted, h5, rfl, h7,
    setMark_fault_jMin DataPoint.interpolate PlotTime PlotTime PlotElevation track3 2 3 3 h5 h7,
    h6, h8,
    setMark_fault_jMax DataPoint.interpolate PlotTime PlotTime PlotElevation track3 (-1) 0 (-1)
      h6 h8⟩

/-- On a sequence with strictly increasing axis values the query at the exact
coordinate of the first or of the last sample returns that sample. -/
theorem interpolateDataX_at_end (interp : Interp) (xv : Channel) (data : List DataPoint)
    (k : Nat) (hn : data.length < 2 ^ 30) (hs : AxisStrict xv data) (hk : k < data.length)
    (hends : k = 0 ∨ k + 1 = data.length) :
    interpolateDataX interp xv data (xv data[k]) = some data[k] := by
  by_cases hfirst : ∃ (i : Nat) (hi : i < data.length), xv data[i] < xv data[k]
  · have hk0 : k ≠ 0 := by
      rintro rfl
      obtain ⟨i, hi, h⟩ := hfirst
      rw [hs.lt_iff hi hk] at h
      omega
    have hlast : k + 1 = data.length := by omega
    obtain ⟨b, hb, hfb, -⟩ := findIndexBelowX_some xv data (xv data[k]) hn hs.sorted hfirst
    have ha := findIndexAboveX_none xv data (xv data[k]) hn hs.sorted
      (fun i hi h => by rw [hs.lt_iff hk hi] at h; omega)
    rw [interpolateDataX_last interp xv data _ b hfb ha, List.getElem?_eq_getElem (by omega)]
    congr 1
    simp [← hlast]
  · have hb := findIndexBelowX_none xv data (xv data[k]) hn hs.sorted
      (fun i hi h => hfirst ⟨i, hi, h⟩)
    have hk0 : k = 0 := by
      by_contra hne
      exact hfirst ⟨0, by omega, hs.lt (by omega) hk (by omega)⟩
    subst hk0
    obtain ⟨r, hr, -⟩ := findIndexAboveX_sorted xv data (xv data[0]) hn hs.sorted
    rw [interpolateDataX_first interp xv data _ r hb hr, List.getElem?_eq_getElem hk]

/-- On a sorted sequence a coordinate strictly between the coordinates of two
adjacent samples is interpolated between exactly these two. -/
theorem interpolateDataX_adjacent (interp : Interp) (xv : Channel) (data : List DataPoint)
    (x : ℚ) (b : Nat) (hn : data.length < 2 ^ 30) (hs : AxisSorted xv data)
    (hb : b + 1 < data.length) (hxb : xv data[b] < x) (hxa : x < xv data[b + 1]) :
    interpolateDataX interp xv data x
      = some (interp data[b] data[b + 1] ((x - xv data[b]) / (xv data[b + 1] - xv data[b]))) := by
  obtain ⟨b', hb', hfb, hbi⟩ := findIndexBelowX_some xv data x hn hs ⟨b, by omega, hxb⟩
  obtain ⟨a', ha', hfa, hai⟩ := findIndexAboveX_some xv data x hn hs ⟨b + 1, hb, hxa⟩
  have e1 : b ≤ b' := (hbi b (by omega)).mpr hxb
  have e2 : ¬ b + 1 ≤ b' := fun h => absurd ((hbi (b + 1) hb).mp h) (not_lt.mpr (le_of_lt hxa))
  have e3 : a' ≤ b + 1 := (hai (b + 1) hb).mpr hxa
  have e4 : ¬ a' ≤ b := fun h =>
    absurd ((hai b (by omega)).mp h) (not_lt.mpr (le_of_lt hxb))
  have eb : b' = b := by omega
  have ea : a' = b + 1 := by omega
  subst eb ea
  exact interpolateDataX_between interp xv data x b' (b' + 1) (by omega) hb hfb hfa
    (by intro h; linarith)

theorem interpolateDataT_first (interp : Interp) (data : List DataPoint) (t : ℚ)
    (hpos : 0 < data.length) (ht : t ≤ PlotTime data[0]) :
    interpolateDataT interp data t = some data[0] := by
  have h0 : dataPoint data 0 = some data[0] := dataPoint_of_lt data 0 hpos
  have hl : dataPoint data ((data.length : Int) - 1) = some data[data.length - 1] := by
    have e : (data.length : Int) - 1 = ((data.length - 1 : Nat) : Int) := by omega
    rw [e]; exact dataPoint_of_lt data _ (by omega)
  unfold interpolateDataT
  rw [h0, hl]
  exact if_pos ht

theorem interpolateDataT_last (interp : Interp) (data : List DataPoint) (t : ℚ)
    (hpos : 0 < data.length) (hf : ¬ t ≤ PlotTime data[0])
    (ht : PlotTime data[data.length - 1] ≤ t) :
    interpolateDataT interp data t = some data[data.length - 1] := by
  have h0 : dataPoint data 0 = some data[0] := dataPoint_of_lt data 0 hpos
  have hl : dataPoint data ((data.length : Int) - 1) = some data[data.length - 1] := by
    have e : (data.length : Int) - 1 = ((data.length - 1 : Nat) : Int) := by omega
    rw [e]; exact dataPoint_of_lt data _ (by omega)
  unfold interpolateDataT
  rw [h0, hl]
  show (if t ≤ PlotTime data[0] then _ else if PlotTime data[data.length - 1] ≤ t then _ else _)
    = _
  rw [if_neg hf, if_pos ht]

theorem interpolateDataT_between (interp : Interp) (data : List DataPoint) (t : ℚ) (b : Nat)
    (hb : b + 1 < data.length) (hf : ¬ t ≤ PlotTime data[0])
    (hl : ¬ PlotTime data[data.length - 1] ≤ t)
    (h1 : findIndexBelowX PlotTime data t = some (b : Int))
    (hne : PlotTime data[b + 1] - PlotTime data[b] ≠ 0) :
    interpolateDataT interp data t
      = some (interp data[b] data[b + 1]
          ((t - PlotTime data[b]) / (PlotTime data[b + 1] - PlotTime data[b]))) := by
  have h0 : dataPoint data 0 = some data[0] := dataPoint_of_lt data 0 (by omega)
  have hlast : dataPoint data ((data.length : Int) - 1) = some data[data.length - 1] := by
    have e : (data.length : Int) - 1 = ((data.length - 1 : Nat) : Int) := by omega
    rw [e]; exact dataPoint_of_lt data _ (by omega)
  have hd1 : dataPoint data (b : Int) = some data[b] := dataPoint_of_lt data b (by omega)
  have hd2 : dataPoint data ((b : Int) + 1) = some data[b + 1] := by
    have e : (b : Int) + 1 = ((b + 1 : Nat) : Int) := by push_cast; rfl
    rw [e]; exact dataPoint_of_lt data _ hb
  unfold interpolateDataT
  rw [h0, hlast]
  show (if t ≤ PlotTime data[0] then _ else if PlotTime data[data.length - 1] ≤ t then _ else _)
    = _
  rw [if_neg hf, if_neg hl, h1]
  show (match dataPoint data (b : Int), dataPoint data ((b : Int) + 1) with
    | some dp1, some dp2 =>
      if dp2.t - dp1.t = 0 then some dp1
      else some (interp dp1 dp2 ((t - dp1.t) / (dp2.t - dp1.t)))
    | _, _ => none) = _
  rw [hd1, hd2]
  exact if_neg hne

/-- The sample `interpolateDataT` returns on a non-empty sequence sorted by time:
the first one at or before the first time, the last one at or after the last
time, and in between the interpolation of the adjacent samples `b`, `b + 1` with
`t(b) < t <= t(b + 1)`. -/
theorem interpolateDataT_sorted (interp : Interp) (data : List DataPoint) (t : ℚ)
    (hn : data.length < 2 ^ 30) (hpos : 0 < data.length) (hst : AxisSorted PlotTime data) :
    (t ≤ PlotTime data[0] ∧ interpolateDataT interp data t = some data[0])
    ∨ (PlotTime data[data.length - 1] ≤ t
        ∧ interpolateDataT interp data t = some data[data.length - 1])
    ∨ ∃ (b : Nat) (hb : b + 1 < data.length),
        PlotTime data[b] < t ∧ t ≤ PlotTime data[b + 1]
        ∧ PlotTime data[0] < t ∧ t < PlotTime data[data.length - 1]
        ∧ interpolateDataT interp data t
          = some (interp data[b] data[b + 1]
              ((t - PlotTime data[b]) / (PlotTime data[b + 1] - PlotTime data[b]))) := by
  by_cases hf : t ≤ PlotTime data[0]
  · exact Or.inl ⟨hf, interpolateDataT_first interp data t hpos hf⟩
  by_cases hl : PlotTime data[data.length - 1] ≤ t
  · exact Or.inr (Or.inl ⟨hl, interpolateDataT_last interp data t hpos hf hl⟩)
  obtain ⟨b, hb, hfb, hbi⟩ := findIndexBelowX_some PlotTime data t hn hst
    ⟨0, hpos, not_le.mp hf⟩
  have hb1 : b + 1 < data.length := by
    by_contra hcon
    have hbl : b = data.length - 1 := by omega
    subst hbl
    exact hl (le_of_lt ((hbi _ (by omega)).mp (le_refl _)))
  have htb : PlotTime data[b] < t := (hbi b hb).mp (le_refl _)
  have hta : t ≤ PlotTime data[b + 1] :=
    not_lt.mp fun h => by have := (hbi (b + 1) hb1).mpr h; omega
  refine Or.inr (Or.inr ⟨b, hb1, htb, hta, not_le.mp hf, not_le.mp hl, ?_⟩)
  exact interpolateDataT_between interp data t b hb1 hf hl hfb (by intro h; linarith)

/-- One endpoint of the round trip of C11: `interpolateDataT` returns a sample
`dp` for the time `t`; when `t` is not the time of an interior sample, the axis
coordinate of `dp` is not that of an interior sample; and whenever that is so,
`interpolateDataX` at the axis coordinate of `dp` returns a sample whose time is
`t` clamped to the span. -/
theorem round_trip_endpoint (interp : Interp) (xv : Channel) (data : List DataPoint) (t : ℚ)
    (hn : data.length < 2 ^ 30) (hne : data ≠ [])
    (hst : AxisSorted PlotTime data) (hsx : AxisStrict xv data)
    (hlt : ∀ p q f, PlotTime (interp p q f) = PlotTime p + f * (PlotTime q - PlotTime p))
    (hlx : ∀ p q f, xv (interp p q f) = xv p + f * (xv q - xv p)) :
    ∃ dp, interpolateDataT interp data t = some dp
      ∧ (OffInterior PlotTime data hne t → OffInterior xv data hne (xv dp))
      ∧ (OffInterior xv data hne (xv dp) →
          ∃ dp', interpolateDataX interp xv data (xv dp) = some dp'
            ∧ dp'.t = clampTime data hne t) := by
  have hpos : 0 < data.length := List.length_pos.mpr hne
  have hlastlt : data.length - 1 < data.length := by omega
  have hhead : data.head hne = data[0] := List.head_eq_getElem _ _
  have hlast : data.getLast hne = data[data.length - 1] := List.getLast_eq_getElem _ _
  have hFL : PlotTime data[0] ≤ PlotTime data[data.length - 1] :=
    hst.le hpos hlastlt (by omega)
  unfold OffInterior clampTime
  rw [hhead, hlast]
  rcases interpolateDataT_sorted interp data t hn hpos hst with
    ⟨hf, hT⟩ | ⟨hl, hT⟩ | ⟨b, hb, htb, hta, hF, hL, hT⟩
  · -- at or before the first time
    refine ⟨data[0], hT, fun _ => Or.inl (le_refl _), fun _ => ⟨data[0], ?_, ?_⟩⟩
    · exact interpolateDataX_at_end interp xv data 0 hn hsx hpos (Or.inl rfl)
    · rw [min_eq_left (le_trans hf hFL), max_eq_left hf]
      rfl
  · -- at or after the last time
    refine ⟨data[data.length - 1], hT, fun _ => Or.inr (Or.inl (le_refl _)),
      fun _ => ⟨data[data.length - 1], ?_, ?_⟩⟩
    · exact interpolateDataX_at_end interp xv data (data.length - 1) hn hsx hlastlt
        (Or.inr (by omega))
    · rw [min_eq_right hl, max_eq_right hFL]
      rfl
  · -- strictly inside the span, between the adjacent samples `b` and `b + 1`
    have hxs : xv data[b] < xv data[b + 1] := hsx.lt (by omega) hb (by omega)
    have hdt : 0 < PlotTime data[b + 1] - PlotTime data[b] := by linarith
    have hdx : 0 < xv data[b + 1] - xv data[b] := by linarith
    have hf0 : 0 < (t - PlotTime data[b]) / (PlotTime data[b + 1] - PlotTime data[b]) :=
      div_pos (by linarith) hdt
    refine ⟨_, hT, ?_, ?_⟩
    · rintro (h | h | h)
      · exact absurd h (not_le.mpr hF)
      · exact absurd h (not_le.mpr hL)
      · have hne1 : PlotTime data[b + 1] ≠ t := h _ (List.getElem_mem hb)
        have hta' : t < PlotTime data[b + 1] := lt_of_le_of_ne hta (Ne.symm hne1)
        have hf1 : (t - PlotTime data[b]) / (PlotTime data[b + 1] - PlotTime data[b]) < 1 :=
          (div_lt_one hdt).mpr (by linarith)
        refine Or.inr (Or.inr ?_)
        intro p hp
        obtain ⟨i, hi, rfl⟩ := List.getElem_of_mem hp
        rw [hlx]
        by_cases hib : i ≤ b
        · have := hsx.sorted.le hi (show b < data.length by omega) hib
          nlinarith
        · have := hsx.sorted.le hb hi (by omega)
          nlinarith
    · intro hgood
      rw [hlx] at hgood ⊢
      by_cases hta' : t < PlotTime data[b + 1]
      · have hf1 : (t - PlotTime data[b]) / (PlotTime data[b + 1] - PlotTime data[b]) < 1 :=
          (div_lt_one hdt).mpr (by linarith)
        have h1 := interpolateDataX_adjacent interp xv data
          (xv data[b] + (t - PlotTime data[b]) / (PlotTime data[b + 1] - PlotTime data[b])
            * (xv data[b + 1] - xv data[b])) b hn hsx.sorted hb
          (by nlinarith) (by nlinarith)
        have e1 : xv data[b] + (t - PlotTime data[b])
              / (PlotTime data[b + 1] - PlotTime data[b]) * (xv data[b + 1] - xv data[b])
            - xv data[b]
            = (t - PlotTime data[b]) / (PlotTime data[b + 1] - PlotTime data[b])
              * (xv data[b + 1] - xv data[b]) := by ring
        rw [e1, mul_div_assoc, div_self (ne_of_gt hdx), mul_one] at h1
        refine ⟨_, h1, ?_⟩
        show PlotTime (interp _ _ _) = _
        rw [hlt, div_mul_cancel₀ _ (ne_of_gt hdt), min_eq_left (le_of_lt hL),
          max_eq_right (le_of_lt hF)]
        ring
      · -- `t` is the time of the interior sample `b + 1`: its coordinate is excluded
        have hteq : t = PlotTime data[b + 1] := le_antisymm hta (not_lt.mp hta')
        have hx : xv data[b] + (t - PlotTime data[b])
              / (PlotTime data[b + 1] - PlotTime data[b]) * (xv data[b + 1] - xv data[b])
            = xv data[b + 1] := by
          rw [hteq, div_self (ne_of_gt hdt)]; ring
        rw [hx] at hgood
        have hb2 : b + 1 < data.length - 1 := by
          by_contra hcon
          have hbl : b + 1 = data.length - 1 := by omega
          have : PlotTime data[b + 1] = PlotTime data[data.length - 1] := by
            simp only [hbl]
          linarith
        rcases hgood with h | h | h
        · exact absurd h (not_le.mpr (hsx.lt hpos hb (by omega)))
        · exact absurd h (not_le.mpr (hsx.lt hb hlastlt hb2))
        · exact absurd rfl (h _ (List.getElem_mem hb))

theorem surge3_strict : AxisStrict PlotDistance2D surge3 := by
  simp [AxisStrict, surge3, PlotDistance2D, mkFix]

theorem surge3_time_sorted : AxisSorted PlotTime surge3 := by
  simp [AxisSorted, surge3, PlotTime, mkFix]

theorem interpolate_distance_linear (p q : DataPoint) (f : ℚ) :
    PlotDistance2D (DataPoint.interpolate p q f)
      = PlotDistance2D p + f * (PlotDistance2D q - PlotDistance2D p) := rfl

theorem pause4_sorted : AxisSorted PlotDistance2D pause4 := by
  simp [AxisSorted, pause4, PlotDistance2D, mkFix]

/-- At the time of a sample `interpolateDataT`, as the specification words it,
returns that sample: on the samples at `t = 0, 1, 2` the time `1` gives the middle
sample. -/
theorem interpolateDataT_surge3_one :
    interpolateDataT DataPoint.interpolate surge3 1 = some (mkFix 1 1) := by
  norm_num [interpolateDataT, findIndexBelowX, findIndexBelowX.loop, int32, dataPoint_cons,
    dataPoint_nil, surge3, PlotTime, mkFix, DataPoint.interpolate, Int.tdiv_eq_ediv]

theorem updateRange_track3 :
    updateRange DataPoint.interpolate PlotTime track3 (-1) 3 = some (some (0, 2)) := by
  norm_num [updateRange, interpolateDataT, findIndexBelowX, findIndexBelowX.loop, int32,
    dataPoint_cons, dataPoint_nil, track3, PlotTime, mkPoint, DataPoint.interpolate,
    Int.tdiv_eq_ediv]

theorem setRange_track3 :
    setRange DataPoint.interpolate PlotTime track3 0 2 = some (0, 2) := by
  norm_num [setRange, interpolateDataX, findIndexBelowX,
    findIndexBelowX.loop, findIndexAboveX, findIndexAboveX.loop, int32, dataPoint_cons,
    dataPoint_nil, track3, PlotTime, mkPoint, DataPoint.interpolate, Int.tdiv_eq_ediv]

theorem updateRange_surge3 :
    updateRange DataPoint.interpolate PlotDistance2D surge3 1 2 = some (some (1, 10)) := by
  norm_num [updateRange, interpolateDataT, findIndexBelowX, findIndexBelowX.loop, int32,
    dataPoint_cons, dataPoint_nil, surge3, PlotTime, PlotDistance2D, mkFix,
    DataPoint.interpolate, Int.tdiv_eq_ediv]

theorem setRange_surge3 :
    setRange DataPoint.interpolate PlotDistance2D surge3 1 10 = some (1 / 5, 2) := by
  norm_num [setRange, interpolateDataX, findIndexBelowX,
    findIndexBelowX.loop, findIndexAboveX, findIndexAboveX.loop, int32, dataPoint_cons,
    dataPoint_nil, surge3, PlotTime, PlotDistance2D, mkFix, DataPoint.interpolate,
    Int.tdiv_eq_ediv]

theorem updateRange_pause4 :
    updateRange DataPoint.interpolate PlotDistance2D pause4 (5 / 4) 3 = some (some (1, 2)) := by
  norm_num [updateRange, interpolateDataT, findIndexBelowX, findIndexBelowX.loop, int32,
    dataPoint_cons, dataPoint_nil, pause4, PlotTime, PlotDistance2D, mkFix,
    DataPoint.interpolate, Int.tdiv_eq_ediv]

theorem setRange_pause4 :
    setRange DataPoint.interpolate PlotDistance2D pause4 1 2 = some (3 / 2, 3) := by
  norm_num [setRange, interpolateDataX, findIndexBelowX,
    findIndexBelowX.loop, findIndexAboveX, findIndexAboveX.loop, int32, dataPoint_cons,
    dataPoint_nil, pause4, PlotTime, PlotDistance2D, mkFix, DataPoint.interpolate,
    Int.tdiv_eq_ediv]

end FlySight
